import Mathlib

set_option maxHeartbeats 1600000
set_option maxRecDepth 4096

/-!
Verification development for the offst credit-payment core.

This file gives a shallow embedding, in Lean, of the parts of the Rust
sources that the checked properties talk about:

* `components/funder/src/types.rs` — the funder data model and the
  canonical byte serialization of `FriendTcOp`;
* `components/funder/src/handler/handle_control.rs` — the control-message
  handler of the funder;
* `components/channeler/src/listen_pool.rs` — the relay listen pool;
* `src/channeler/handshake/server.rs` — the responder side of the
  channeler handshake;
* `src/networker/messenger/token_channel.rs` — the transactional
  message-batch processor of the old networker token channel.

Machine integers are embedded as `Nat` / `Int` (with `Fin` for the
fixed-width unsigned types where the width matters), byte strings as
lists of `Nat` with a length invariant, hash maps as association lists.
Pieces of the repository that are referenced by the embedded code but
whose sources are not part of the source tree (the funder state and
friend structures, the freeze guard, the handshake configuration
constants, the old balance modules) are modelled from the specification;
each such definition carries a doc comment saying so.
-/

namespace Offst

/-- Fixed-width byte strings: a list of byte values with a fixed length. -/
def Bytes (n : Nat) : Type := {l : List Nat // l.length = n}

instance (n : Nat) : DecidableEq (Bytes n) := fun a b =>
  decidable_of_iff (a.val = b.val) Subtype.ext_iff.symm

end Offst

deriving instance DecidableEq for Except

namespace Offst

/-- 32-byte public key (crypto::identity::PublicKey). -/
abbrev PublicKey := Bytes 32

/-- 64-byte signature (crypto::identity::Signature). -/
abbrev Signature := Bytes 64

/-- 16-byte request identifier (crypto::uid::Uid). -/
abbrev Uid := Bytes 16

/-- 16-byte random value (crypto::crypto_rand::RandValue). -/
abbrev RandValue := Bytes 16

/-- 32-byte invoice identifier (INVOICE_ID_LEN = 32). -/
abbrev InvoiceId := Bytes 32

/-- 32-byte hash result (sha512/256 output). -/
abbrev HashResult := Bytes 32

/-- 32-byte channel token (CHANNEL_TOKEN_LEN = 32). -/
abbrev ChannelToken := Bytes 32

/-- Unsigned 128-bit integers (Rust u128). -/
abbrev U128 := Fin (2 ^ 128)

/-- Big-endian byte encoding of a natural number into exactly `k` bytes,
as produced by byteorder's `write_u128::<BigEndian>` and friends (the
value is taken modulo 256 ^ k). -/
def natBEbytes : Nat → Nat → List Nat
  | 0, _ => []
  | k + 1, n => natBEbytes k (n / 256) ++ [n % 256]

/-- The big-endian value of a byte list. -/
def beVal (l : List Nat) : Nat :=
  l.foldl (fun a b => a * 256 + b) 0

/-- First-in-first lookup in an association list (models HashMap lookup). -/
def alookup {α β : Type} [DecidableEq α] (a : α) : List (α × β) → Option β
  | [] => none
  | p :: rest => if p.1 = a then some p.2 else alookup a rest

/-- Remove a key from an association list (models HashMap removal). -/
def aremove {α β : Type} [DecidableEq α] (a : α) : List (α × β) → List (α × β)
  | [] => []
  | p :: rest => if p.1 = a then aremove a rest else p :: aremove a rest

/-- Remove every key of a list from an association list. -/
def aremoveAll {α β : Type} [DecidableEq α] (bad : List α) : List (α × β) → List (α × β)
  | [] => []
  | p :: rest => if p.1 ∈ bad then aremoveAll bad rest else p :: aremoveAll bad rest

end Offst

namespace Offst

/-! ### Funder data model (components/funder/src/types.rs) -/

/-- The ratio can be numerator / u128::max_value(), or 1  (types.rs). -/
inductive Ratio where
  | One : Ratio
  | Numerator (num : U128) : Ratio
deriving DecidableEq

/-- FunderFreezeLink (types.rs). -/
structure FunderFreezeLink where
  shared_credits : U128
  usable_ratio : Ratio
deriving DecidableEq

/-- FriendsRoute (types.rs): an ordered sequence of public keys. -/
structure FriendsRoute where
  public_keys : List PublicKey
deriving DecidableEq

/-- RequestSendFunds (types.rs). -/
structure RequestSendFunds where
  request_id : Uid
  route : FriendsRoute
  dest_payment : U128
  invoice_id : InvoiceId
  freeze_links : List FunderFreezeLink
deriving DecidableEq

/-- ResponseSendFunds (types.rs). -/
structure ResponseSendFunds where
  request_id : Uid
  rand_nonce : RandValue
  signature : Signature
deriving DecidableEq

/-- FailureSendFunds (types.rs). -/
structure FailureSendFunds where
  request_id : Uid
  reporting_public_key : PublicKey
  rand_nonce : RandValue
  signature : Signature
deriving DecidableEq

/-- FriendTcOp (types.rs): the token-channel operations. -/
inductive FriendTcOp where
  | EnableRequests : FriendTcOp
  | DisableRequests : FriendTcOp
  | SetRemoteMaxDebt (remote_max_debt : U128) : FriendTcOp
  | RequestSendFunds (r : RequestSendFunds) : FriendTcOp
  | ResponseSendFunds (r : ResponseSendFunds) : FriendTcOp
  | FailureSendFunds (f : FailureSendFunds) : FriendTcOp
deriving DecidableEq

/-- FriendsRoute::len (types.rs). -/
def FriendsRoute.len (r : FriendsRoute) : Nat :=
  r.public_keys.length

/-- The seen-set loop of FriendsRoute::is_cycle_free (types.rs),
with the HashSet embedded as the list of keys seen so far. -/
def cycleFreeGo : List PublicKey → List PublicKey → Bool
  | _, [] => true
  | seen, pk :: rest =>
    if pk ∈ seen then false else cycleFreeGo (pk :: seen) rest

/-- FriendsRoute::is_cycle_free (types.rs): every key appears at most once. -/
def FriendsRoute.is_cycle_free (r : FriendsRoute) : Bool :=
  cycleFreeGo [] r.public_keys

/-- The concatenation of the raw bytes of a list of public keys,
as in the loop of FriendsRoute::to_bytes (types.rs). -/
def keysBytes : List PublicKey → List Nat
  | [] => []
  | pk :: rest => pk.val ++ keysBytes rest

/-- FriendsRoute::to_bytes (types.rs): a big-endian u64 length prefix
followed by the keys' raw bytes. -/
def FriendsRoute.to_bytes (r : FriendsRoute) : List Nat :=
  natBEbytes 8 r.public_keys.length ++ keysBytes r.public_keys

/-- Ratio::to_bytes (types.rs): tag byte 0 for One, tag byte 1 followed by
the big-endian u128 for Numerator. -/
def Ratio.to_bytes : Ratio → List Nat
  | .One => [0]
  | .Numerator num => 1 :: natBEbytes 16 num.val

/-- FunderFreezeLink::to_bytes (types.rs). -/
def FunderFreezeLink.to_bytes (l : FunderFreezeLink) : List Nat :=
  natBEbytes 16 l.shared_credits.val ++ l.usable_ratio.to_bytes

/-- The freeze-links loop of RequestSendFunds::to_bytes (types.rs). -/
def linksBytes : List FunderFreezeLink → List Nat
  | [] => []
  | l :: rest => l.to_bytes ++ linksBytes rest

/-- RequestSendFunds::to_bytes (types.rs).  Note that the source
serializes request_id, route, dest_payment and freeze_links only:
the invoice_id field is not written. -/
def RequestSendFunds.to_bytes (r : RequestSendFunds) : List Nat :=
  r.request_id.val ++ r.route.to_bytes ++ natBEbytes 16 r.dest_payment.val
    ++ linksBytes r.freeze_links

/-- ResponseSendFunds::to_bytes (types.rs). -/
def ResponseSendFunds.to_bytes (r : ResponseSendFunds) : List Nat :=
  r.request_id.val ++ r.rand_nonce.val ++ r.signature.val

/-- FailureSendFunds::to_bytes (types.rs).  Note that the source writes
request_id, reporting_public_key and signature only: the rand_nonce
field is not written. -/
def FailureSendFunds.to_bytes (f : FailureSendFunds) : List Nat :=
  f.request_id.val ++ f.reporting_public_key.val ++ f.signature.val

/-- FriendTcOp::to_bytes (types.rs): a one-byte variant tag followed by
the per-variant payload bytes. -/
def FriendTcOp.to_bytes : FriendTcOp → List Nat
  | .EnableRequests => [0]
  | .DisableRequests => [1]
  | .SetRemoteMaxDebt remote_max_debt => 2 :: natBEbytes 16 remote_max_debt.val
  | .RequestSendFunds r => 3 :: r.to_bytes
  | .ResponseSendFunds r => 4 :: r.to_bytes
  | .FailureSendFunds f => 5 :: f.to_bytes

/-- FriendTcOp::approx_bytes_count (types.rs). -/
def FriendTcOp.approx_bytes_count (op : FriendTcOp) : Nat :=
  op.to_bytes.length

/-! ### Funder control handler (components/funder/src/handler/handle_control.rs)

The handler lives on `MutableFunderHandler`, whose state and friend
structures (`state.rs`, `friend.rs`), freeze guard and sender are not in
the source tree; those parts are modelled from the specification (spec
sections 3, 4.4, 4.5, 4.6) and marked as such below.  The control flow
of each `control_*` function follows `handle_control.rs` line by line. -/

/-- SendFundsReceipt (types.rs). -/
structure SendFundsReceipt where
  response_hash : HashResult
  invoice_id : InvoiceId
  dest_payment : U128
  signature : Signature
deriving DecidableEq

/-- FriendStatus (types.rs). -/
inductive FriendStatus where
  | Enable : FriendStatus
  | Disable : FriendStatus
deriving DecidableEq

/-- RequestsStatus (types.rs). -/
inductive RequestsStatus where
  | Open : RequestsStatus
  | Closed : RequestsStatus
deriving DecidableEq

/-- PendingFriendRequest (types.rs). -/
structure PendingFriendRequest where
  request_id : Uid
  route : FriendsRoute
  dest_payment : U128
  invoice_id : InvoiceId
deriving DecidableEq

/-- ResetTerms.  The copy of `types.rs` in the tree carries reset_token and
balance_for_reset only, while the handler also reads an
inconsistency_counter from the remote reset terms; the spec glossary
defines reset terms as the triple (reset_token, balance_for_reset,
inconsistency_counter), which is what we embed. -/
structure ResetTerms where
  reset_token : ChannelToken
  inconsistency_counter : Nat
  balance_for_reset : Int
deriving DecidableEq

/-- Modelled from the spec (section 3, MutualCredit): the per-friend ledger
state read by the control handler.  The mutual-credit module itself is not
in the source tree. -/
structure MutualCreditState where
  balance : Int
  local_max_debt : Nat
  remote_max_debt : Nat
  local_pending_debt : Nat
  remote_pending_debt : Nat
  requests_status_local : RequestsStatus
  requests_status_remote : RequestsStatus
  pending_local_requests : List (Uid × PendingFriendRequest)
  pending_remote_requests : List (Uid × PendingFriendRequest)
deriving DecidableEq

/-- Modelled from the spec (section 3, TokenChannel): the funder-side token
channel envelope around a mutual credit; `token_channel.rs` of the funder
is not in the source tree.  Only the fields the handled claims read are
carried. -/
structure TokenChannelState where
  mutual_credit : MutualCreditState
  move_token_counter : Nat
  inconsistency_counter : Nat
  new_token : ChannelToken
deriving DecidableEq

/-- Modelled from the spec (section 3, Friend): the Inconsistent channel
payload, holding our reset terms and optionally the remote's. -/
structure ChannelInconsistent where
  local_reset_terms : ResetTerms
  opt_remote_reset_terms : Option ResetTerms
deriving DecidableEq

/-- Modelled from the spec (section 3, Friend): channel_status. -/
inductive ChannelStatus where
  | Consistent (tc : TokenChannelState) : ChannelStatus
  | Inconsistent (ci : ChannelInconsistent) : ChannelStatus
deriving DecidableEq

/-- Modelled from the spec (section 3, Friend): the per-friend aggregate
(`friend.rs` is not in the source tree).  Only the fields the handled
claims read are carried. -/
structure FriendState where
  channel_status : ChannelStatus
  status : FriendStatus
  wanted_remote_max_debt : Nat
  pending_user_requests : List RequestSendFunds
deriving DecidableEq

/-- Modelled from the spec (section 3, FunderState); `state.rs` is not in
the source tree.  The friends HashMap is an association list. -/
structure FunderState where
  local_public_key : PublicKey
  friends : List (PublicKey × FriendState)
  ready_receipts : List (Uid × SendFundsReceipt)
deriving DecidableEq

/-- Modelled from the spec (section 3, Ephemeral): the non-persisted
liveness set.  The freeze-guard graph is handled by
`verify_freezing_links` below. -/
structure Ephemeral where
  liveness_online : List PublicKey
deriving DecidableEq

/-- MutableFunderHandler::get_friend — lookup in the friends map. -/
def FunderState.get_friend (st : FunderState) (pk : PublicKey) : Option FriendState :=
  alookup pk st.friends

/-- Replace the entry of a friend in the friends map. -/
def FunderState.put_friend (st : FunderState) (pk : PublicKey) (f : FriendState) : FunderState :=
  { st with friends := st.friends.map (fun p => if p.1 = pk then (pk, f) else p) }

/-- HandleControlError (handle_control.rs). -/
inductive HandleControlError where
  | FriendDoesNotExist
  | TokenChannelDoesNotExist
  | NotInvitedToReset
  | ResetTokenMismatch
  | NotFirstInRoute
  | InvalidRoute
  | RequestAlreadyInProgress
  | PendingUserRequestsFull
  | ReceiptDoesNotExist
  | UserRequestInvalid
  | FriendNotReady
  | BlockedByFreezeGuard
deriving DecidableEq

/-- ResponseSendFundsResult (messages.rs, not in the source tree; modelled
from the spec, section 6: Success carries a receipt, Failure the
reporting public key). -/
inductive ResponseSendFundsResult where
  | Success (receipt : SendFundsReceipt) : ResponseSendFundsResult
  | Failure (reporting_public_key : PublicKey) : ResponseSendFundsResult
deriving DecidableEq

/-- ResponseReceived (types.rs). -/
structure ResponseReceived where
  request_id : Uid
  result : ResponseSendFundsResult
deriving DecidableEq

/-- UserRequestSendFunds (types.rs). -/
structure UserRequestSendFunds where
  request_id : Uid
  route : FriendsRoute
  invoice_id : InvoiceId
  dest_payment : U128
deriving DecidableEq

/-- UserRequestSendFunds::to_request (types.rs): empty freeze links. -/
def UserRequestSendFunds.to_request (u : UserRequestSendFunds) : RequestSendFunds :=
  { request_id := u.request_id
    route := u.route
    dest_payment := u.dest_payment
    invoice_id := u.invoice_id
    freeze_links := [] }

/-- ResetFriendChannel (types.rs). -/
structure ResetFriendChannel where
  friend_public_key : PublicKey
  current_token : ChannelToken
deriving DecidableEq

/-- ReceiptAck (types.rs). -/
structure ReceiptAck where
  request_id : Uid
  receipt_hash : HashResult
deriving DecidableEq

/-- MAX_PENDING_USER_REQUESTS (handle_control.rs): 0x10. -/
def MAX_PENDING_USER_REQUESTS : Nat := 0x10

/-- Modelled from the spec: MAX_MOVE_TOKEN_LENGTH, the approximate byte
budget of one MoveToken (spec section 4.2).  The constant is defined in
`handler/mod.rs`, which is not in the source tree, and the spec leaves it
configured; it is fixed here to 4096 bytes. -/
def MAX_MOVE_TOKEN_LENGTH : Nat := 4096

/-- check_user_request_valid (handle_control.rs):
`MAX_MOVE_TOKEN_LENGTH.checked_sub(op.approx_bytes_count())` succeeds
exactly when the serialized request fits the move-token byte budget. -/
def check_user_request_valid (u : UserRequestSendFunds) : Option Unit :=
  if (FriendTcOp.RequestSendFunds u.to_request).approx_bytes_count ≤ MAX_MOVE_TOKEN_LENGTH
  then some () else none

/-- Modelled from the spec (section 4.6): a friend is ready for a new
outgoing request iff it is Enabled, Online, its channel is Consistent and
the remote side of the mutual credit has requests Open.  (The per-request
duplicate check of 4.6 is performed separately by the handler, as in
`handle_control.rs`.)  `is_friend_ready` itself is not in the source
tree. -/
def is_friend_ready (st : FunderState) (eph : Ephemeral) (pk : PublicKey) : Bool :=
  match st.get_friend pk with
  | none => false
  | some f =>
    (f.status = FriendStatus.Enable : Bool)
      && pk ∈ eph.liveness_online
      && match f.channel_status with
         | .Consistent tc => tc.mutual_credit.requests_status_remote = RequestsStatus.Open
         | .Inconsistent _ => false

/-- The usable part of shared credits under a Ratio (spec section 4.5:
One means 1.0, Numerator n means n / 2^128). -/
def ratioApply (shared_credits : Nat) : Ratio → Nat
  | .One => shared_credits
  | .Numerator num => shared_credits * num.val / 2 ^ 128

/-- Modelled from the spec (section 4.5): the freeze-guard check over the
freeze links of a request.  The guard module is not in the source tree;
we embed the per-link capacity test `dest_payment ≤ shared_credits *
usable_ratio` for every link of the request (the frozen totals of the
guard graph are elided — no settled claim depends on the guard's
verdict, only on its Option shape). -/
def verify_freezing_links (_route : FriendsRoute) (dest_payment : U128)
    (freeze_links : List FunderFreezeLink) : Option Unit :=
  if freeze_links.all (fun l => dest_payment.val ≤ ratioApply l.shared_credits.val l.usable_ratio)
  then some () else none

/-- Modelled from the spec (section 4.5, step 1): append our own freeze
link, computed from the outgoing friend's mutual credit, to the
request. -/
def add_local_freezing_link (mc : MutualCreditState) (req : RequestSendFunds) : RequestSendFunds :=
  { req with
      freeze_links := req.freeze_links
        ++ [{ shared_credits := ⟨mc.remote_max_debt % 2 ^ 128, Nat.mod_lt _ (by norm_num)⟩
              usable_ratio := Ratio.One }] }

/-- control_request_send_funds_inner (handle_control.rs), with the handler
state threaded explicitly.  On success it returns the new funder state
and the control responses emitted; every error is returned before any
mutation, as in the source.  The `Inconsistent` arm after the readiness
check is `unreachable!()` in the source (readiness implies a Consistent
channel); it is embedded as the FriendNotReady error, and is provably
dead. -/
def control_request_send_funds_inner (st : FunderState) (eph : Ephemeral)
    (u : UserRequestSendFunds) :
    Except HandleControlError (FunderState × List ResponseReceived) :=
  match check_user_request_valid u with
  | none => .error HandleControlError.UserRequestInvalid
  | some _ =>
  match alookup u.request_id st.ready_receipts with
  | some receipt =>
    .ok (st, [{ request_id := u.request_id
                result := ResponseSendFundsResult.Success receipt }])
  | none =>
  match u.route.public_keys.head? with
  | none => .error HandleControlError.NotFirstInRoute
  | some first =>
  if first = st.local_public_key then
    if u.route.len < 2 ∨ ¬ u.route.is_cycle_free then
      .error HandleControlError.InvalidRoute
    else
      match u.route.public_keys.get? 1 with
      | none => .error HandleControlError.InvalidRoute
      | some friend_public_key =>
      match st.get_friend friend_public_key with
      | none => .error HandleControlError.FriendDoesNotExist
      | some friend =>
        if ¬ is_friend_ready st eph friend_public_key then
          .error HandleControlError.FriendNotReady
        else if friend.pending_user_requests.any (fun r => r.request_id = u.request_id) then
          .error HandleControlError.RequestAlreadyInProgress
        else
          match friend.channel_status with
          | .Inconsistent _ => .error HandleControlError.FriendNotReady
          | .Consistent token_channel =>
            if (alookup u.request_id
                  token_channel.mutual_credit.pending_local_requests).isSome then
              .error HandleControlError.RequestAlreadyInProgress
            else if MAX_PENDING_USER_REQUESTS ≤ friend.pending_user_requests.length then
              .error HandleControlError.PendingUserRequestsFull
            else
              let request_send_funds :=
                add_local_freezing_link token_channel.mutual_credit u.to_request
              let verify_res := verify_freezing_links request_send_funds.route
                request_send_funds.dest_payment request_send_funds.freeze_links
              if verify_res.isNone then
                .error HandleControlError.BlockedByFreezeGuard
              else
                let friend' := { friend with
                  pending_user_requests :=
                    friend.pending_user_requests ++ [request_send_funds] }
                .ok (st.put_friend friend_public_key friend', [])
  else
    .error HandleControlError.NotFirstInRoute

/-- control_request_send_funds (handle_control.rs): on an inner error, emit
one ResponseReceived Failure reporting the local public key and keep the
state unchanged. -/
def control_request_send_funds (st : FunderState) (eph : Ephemeral)
    (u : UserRequestSendFunds) :
    FunderState × List ResponseReceived × Option HandleControlError :=
  match control_request_send_funds_inner st eph u with
  | .ok (st', responses) => (st', responses, none)
  | .error e =>
    (st, [{ request_id := u.request_id
            result := ResponseSendFundsResult.Failure st.local_public_key }], some e)

/-- control_receipt_ack (handle_control.rs): remove the receipt, failing
with ReceiptDoesNotExist when it is absent. -/
def control_receipt_ack (st : FunderState) (ack : ReceiptAck) :
    Except HandleControlError FunderState :=
  if (alookup ack.request_id st.ready_receipts).isSome then
    .ok { st with ready_receipts := aremove ack.request_id st.ready_receipts }
  else
    .error HandleControlError.ReceiptDoesNotExist

/-- FriendMoveToken as constructed by the handler.  The copy of `types.rs`
in the tree carries a reduced 3-field version, while the handler calls a
9-argument constructor; the fields are those of the spec's MoveToken
(section 3).  The new_token signature produced by the identity service is
elided (external collaborator). -/
structure FriendMoveToken where
  operations : List FriendTcOp
  old_token : ChannelToken
  inconsistency_counter : Nat
  move_token_counter : Nat
  balance : Int
  local_pending_debt : Nat
  remote_pending_debt : Nat
  rand_nonce : RandValue
deriving DecidableEq

/-- Modelled from the spec (section 4.4): the fresh consistent token
channel installed by the FriendMutation::LocalReset mutation (`friend.rs`
is not in the source tree).  Balance and pending debts come from the
reset move token; the pending-request maps are empty; the request
statuses start Closed and the max debts at zero. -/
def tokenChannelFromReset (mt : FriendMoveToken) : TokenChannelState :=
  { mutual_credit :=
      { balance := mt.balance
        local_max_debt := 0
        remote_max_debt := 0
        local_pending_debt := mt.local_pending_debt
        remote_pending_debt := mt.remote_pending_debt
        requests_status_local := RequestsStatus.Closed
        requests_status_remote := RequestsStatus.Closed
        pending_local_requests := []
        pending_remote_requests := [] }
    move_token_counter := mt.move_token_counter
    inconsistency_counter := mt.inconsistency_counter
    new_token := mt.old_token }

/-- Modelled from the spec (section 4.4): cancel_local_pending_requests
(`handler/canceler.rs` is not in the source tree).  All pending local
requests on the friend's channel are removed and returned (upstream they
become failures); on an Inconsistent channel there is no mutual credit to
clean. -/
def cancel_local_pending_requests (st : FunderState) (pk : PublicKey) :
    FunderState × List PendingFriendRequest :=
  match st.get_friend pk with
  | none => (st, [])
  | some friend =>
    match friend.channel_status with
    | .Inconsistent _ => (st, [])
    | .Consistent tc =>
      let cancelled := tc.mutual_credit.pending_local_requests.map (·.2)
      let tc' := { tc with mutual_credit := { tc.mutual_credit with pending_local_requests := [] } }
      (st.put_friend pk { friend with channel_status := ChannelStatus.Consistent tc' },
       cancelled)

/-- control_reset_friend_channel (handle_control.rs).  The fresh rand
nonce drawn from the rng is passed in; on success the reset MoveToken,
the new state after the LocalReset mutation and the cancelled local
pending requests are returned. -/
def control_reset_friend_channel (st : FunderState) (msg : ResetFriendChannel)
    (rand_nonce : RandValue) :
    Except HandleControlError (FunderState × FriendMoveToken × List PendingFriendRequest) :=
  match st.get_friend msg.friend_public_key with
  | none => .error HandleControlError.FriendDoesNotExist
  | some friend =>
    match friend.channel_status with
    | .Consistent _ => .error HandleControlError.NotInvitedToReset
    | .Inconsistent channel_inconsistent =>
      match channel_inconsistent.opt_remote_reset_terms with
      | none => .error HandleControlError.NotInvitedToReset
      | some remote_reset_terms =>
        if remote_reset_terms.reset_token ≠ msg.current_token then
          .error HandleControlError.ResetTokenMismatch
        else
          let friend_move_token : FriendMoveToken :=
            { operations := []
              old_token := remote_reset_terms.reset_token
              inconsistency_counter := remote_reset_terms.inconsistency_counter
              move_token_counter := 0
              balance := remote_reset_terms.balance_for_reset
              local_pending_debt := 0
              remote_pending_debt := 0
              rand_nonce := rand_nonce }
          let (st₁, cancelled) := cancel_local_pending_requests st msg.friend_public_key
          let st₂ :=
            match st₁.get_friend msg.friend_public_key with
            | none => st₁
            | some friend₁ =>
              st₁.put_friend msg.friend_public_key
                { friend₁ with
                    channel_status :=
                      ChannelStatus.Consistent (tokenChannelFromReset friend_move_token) }
          .ok (st₂, friend_move_token, cancelled)

/-! ### Listen pool (components/channeler/src/listen_pool.rs)

The pool state keeps, per relay address, the friends allowed on it and a
status: Waiting with a tick counter, or Connected.  The access-control
sender inside Connected and the spawned listener tasks are channel
plumbing and are elided; `handle_timer_tick` instead reports which
addresses it respawned. -/

/-- RelayStatus (listen_pool.rs): ticks left before listening again, or a
live listener. -/
inductive RelayStatus where
  | Waiting (ticks_left : Nat) : RelayStatus
  | Connected : RelayStatus
deriving DecidableEq

/-- Relay (listen_pool_state.rs): the friends allowed on the relay and its
status. -/
structure Relay where
  friends : List PublicKey
  status : RelayStatus
deriving DecidableEq

/-- The listen-pool state over relay addresses of type RA: the relays
HashMap as an association list, plus the configured backoff_ticks. -/
structure PoolState (RA : Type) where
  relays : List (RA × Relay)
  backoff_ticks : Nat

/-- handle_relay_closed (listen_pool.rs): transition the closed relay (if
known) to Waiting(backoff_ticks). -/
def handle_relay_closed {RA : Type} [DecidableEq RA] (st : PoolState RA) (address : RA) :
    PoolState RA :=
  match alookup address st.relays with
  | none => st
  | some relay =>
    { st with relays := st.relays.map (fun p =>
        if p.1 = address
        then (address, { relay with status := RelayStatus.Waiting st.backoff_ticks })
        else p) }

/-- The in-place decrement of one relay in handle_timer_tick
(listen_pool.rs): a Waiting counter loses one tick
(usize::saturating_sub, which is Nat subtraction); Connected relays are
untouched. -/
def decrementRelay (r : Relay) : Relay :=
  match r.status with
  | RelayStatus.Waiting remaining_ticks =>
    { r with status := RelayStatus.Waiting (remaining_ticks - 1) }
  | RelayStatus.Connected => r

/-- Whether a Waiting relay's decremented counter has reached zero, so
handle_timer_tick pushes its address on the spawn list. -/
def relaySpawnDue (r : Relay) : Bool :=
  match r.status with
  | RelayStatus.Waiting remaining_ticks => remaining_ticks - 1 = 0
  | RelayStatus.Connected => false

/-- The first pass of handle_timer_tick (listen_pool.rs). -/
def tickDecrement {RA : Type} (st : PoolState RA) : PoolState RA :=
  { st with relays := st.relays.map (fun p => (p.1, decrementRelay p.2)) }

/-- The spawn list of handle_timer_tick (listen_pool.rs). -/
def tickSpawnList {RA : Type} (st : PoolState RA) : List RA :=
  st.relays.filterMap (fun p => if relaySpawnDue p.2 then some p.1 else none)

/-- Set a relay's status to Connected (the respawn loop of
handle_timer_tick; the freshly spawned listener's channel is elided). -/
def connectRelay (r : Relay) : Relay :=
  { r with status := RelayStatus.Connected }

/-- handle_timer_tick (listen_pool.rs): decrement all Waiting counters,
then respawn (reconnect) exactly the relays whose counter reached zero.
Returns the new pool state together with the respawned addresses. -/
def handle_timer_tick {RA : Type} [DecidableEq RA] (st : PoolState RA) :
    PoolState RA × List RA :=
  let spawn_addresses := tickSpawnList st
  let st₁ := tickDecrement st
  ({ st₁ with relays := st₁.relays.map (fun p =>
      if p.1 ∈ spawn_addresses then (p.1, connectRelay p.2) else p) },
   spawn_addresses)

/-! ### Channeler handshake, responder side (src/channeler/handshake/server.rs)

Cryptographic primitives (signature verification, sha512/256, DH) are
external collaborators: signature checking enters as a boolean-valued
function and the hash of the outgoing ExchangePassive as an input.  The
configuration constants of `channeler/config.rs` are not in the source
tree and are modelled from the spec, which leaves their values open. -/

/-- 32-byte Diffie-Hellman public key. -/
abbrev DhPublicKey := Bytes 32

/-- 32-byte key salt. -/
abbrev Salt := Bytes 32

/-- Modelled from the spec (section 4.7): HANDSHAKE_SESSION_TIMEOUT from
`channeler/config.rs`, which is not in the source tree; the spec gives no
value, so it is fixed here to 8 ticks. -/
def HANDSHAKE_SESSION_TIMEOUT : Nat := 8

/-- Modelled from the spec (section 4.7): RAND_VALUES_STORE_TICKS from
`channeler/config.rs` (not in the source tree; value left open by the
spec). -/
def RAND_VALUES_STORE_TICKS : Nat := 4

/-- Modelled from the spec (section 4.7): RAND_VALUES_STORE_CAPACITY from
`channeler/config.rs` (not in the source tree; value left open by the
spec). -/
def RAND_VALUES_STORE_CAPACITY : Nat := 3

/-- Modelled from the spec (section 4.7): the responder's sliding-window
rand-values store (`crypto/rand_values.rs` is an external collaborator):
a window of at most RAND_VALUES_STORE_CAPACITY values, rotated every
RAND_VALUES_STORE_TICKS ticks. -/
structure RandValuesStore where
  ticks_left : Nat
  values : List RandValue
deriving DecidableEq

/-- Membership in the sliding window. -/
def RandValuesStore.contains (s : RandValuesStore) (rv : RandValue) : Bool :=
  rv ∈ s.values

/-- Modelled from the spec (section 4.7): one timer tick of the sliding
window; when the rotation period elapses a fresh value (drawn from the
rng, passed in) enters the window and the oldest value beyond the
capacity leaves. -/
def RandValuesStore.time_tick (s : RandValuesStore) (fresh : RandValue) : RandValuesStore :=
  if s.ticks_left ≤ 1 then
    { ticks_left := RAND_VALUES_STORE_TICKS
      values := (s.values ++ [fresh]).drop ((s.values.length + 1) - RAND_VALUES_STORE_CAPACITY) }
  else
    { s with ticks_left := s.ticks_left - 1 }

/-- ExchangeActive (proto/channeler): the second handshake message. -/
structure ExchangeActive where
  initiator_public_key : PublicKey
  initiator_rand_nonce : RandValue
  responder_rand_nonce : RandValue
  dh_public_key : DhPublicKey
  key_salt : Salt
  signature : Signature
deriving DecidableEq

/-- The neighbor-table entry as read by the handshake server: only whether
a remote address is configured (the initiator side) matters. -/
structure Neighbor where
  remote_addr : Option Unit
deriving DecidableEq

/-- HandshakeServerSession (server.rs). -/
structure HandshakeServerSession where
  remote_public_key : PublicKey
  recv_rand_nonce : RandValue
  sent_rand_nonce : RandValue
  sent_key_salt : Salt
  recv_key_salt : Salt
  remote_dh_public_key : DhPublicKey
  timeout : Nat
deriving DecidableEq

/-- HandshakeServerError (server.rs); the CryptoError payload is elided. -/
inductive HandshakeServerError where
  | CryptoError
  | UnknownNeighbor
  | LocalhostNotResponder
  | HandshakeInProgress
  | HandshakeServerSessionNotFound
  | SignatureVerificationFailed
  | InvalidResponderNonce
deriving DecidableEq

/-- HandshakeServer (server.rs): the responder state.  The two HashMaps
are association lists. -/
structure HandshakeServer where
  local_public_key : PublicKey
  neighbors : List (PublicKey × Neighbor)
  rand_values_store : RandValuesStore
  handshake_server_sessions : List (HashResult × HandshakeServerSession)
  public_key_to_hash_result : List (PublicKey × HashResult)
deriving DecidableEq

/-- check_exchange_active (server.rs), with signature verification passed
in as `sigOk` (external crypto).  Returns the error it would raise, or
none when all four checks pass, preserving the source's check order:
neighbor lookup, signature, responder nonce, handshake in progress. -/
def check_exchange_active (sigOk : ExchangeActive → Bool) (st : HandshakeServer)
    (exchange_active : ExchangeActive) : Option HandshakeServerError :=
  match alookup exchange_active.initiator_public_key st.neighbors with
  | none => some HandshakeServerError.UnknownNeighbor
  | some neighbor =>
    if neighbor.remote_addr.isSome then
      some HandshakeServerError.LocalhostNotResponder
    else if ¬ sigOk exchange_active then
      some HandshakeServerError.SignatureVerificationFailed
    else if ¬ st.rand_values_store.contains exchange_active.responder_rand_nonce then
      some HandshakeServerError.InvalidResponderNonce
    else if (alookup exchange_active.initiator_public_key st.public_key_to_hash_result).isSome then
      some HandshakeServerError.HandshakeInProgress
    else
      none

/-- handle_exchange_active (server.rs).  The freshly drawn DH keypair and
salt, and the hash of the outgoing ExchangePassive (`last_hash`), enter
as inputs (external crypto).  Mirrors the source exactly, including the
branch where the sessions map already holds `last_hash`: there the
HashMap insert has replaced the stored session before the error is
returned. -/
def handle_exchange_active (sigOk : ExchangeActive → Bool)
    (fresh_key_salt : Salt) (last_hash : HashResult)
    (st : HandshakeServer) (exchange_active : ExchangeActive) :
    HandshakeServer × Except HandshakeServerError Unit :=
  match check_exchange_active sigOk st exchange_active with
  | some e => (st, .error e)
  | none =>
    let new_session : HandshakeServerSession :=
      { remote_public_key := exchange_active.initiator_public_key
        sent_key_salt := fresh_key_salt
        recv_key_salt := exchange_active.key_salt
        sent_rand_nonce := exchange_active.responder_rand_nonce
        recv_rand_nonce := exchange_active.initiator_rand_nonce
        remote_dh_public_key := exchange_active.dh_public_key
        timeout := HANDSHAKE_SESSION_TIMEOUT }
    match alookup last_hash st.handshake_server_sessions with
    | some _ =>
      ({ st with handshake_server_sessions := st.handshake_server_sessions.map (fun p =>
           if p.1 = last_hash then (p.1, new_session) else p) },
       .error HandshakeServerError.HandshakeInProgress)
    | none =>
      ({ st with
           handshake_server_sessions :=
             (last_hash, new_session) :: st.handshake_server_sessions
           public_key_to_hash_result :=
             (exchange_active.initiator_public_key, last_hash)
               :: st.public_key_to_hash_result },
       .ok ())

/-- One session under the retain closure of time_tick (server.rs): a
session with at least one tick left survives with the timeout
decremented; an expired one is dropped. -/
def retainSession (s : HandshakeServerSession) : Option HandshakeServerSession :=
  if 1 ≤ s.timeout then some { s with timeout := s.timeout - 1 } else none

/-- The public key an expired session contributes to the expired list of
time_tick (server.rs). -/
def expireSession (s : HandshakeServerSession) : Option PublicKey :=
  if 1 ≤ s.timeout then none else some s.remote_public_key

/-- The retain pass of time_tick (server.rs). -/
def sessionsRetain (sessions : List (HashResult × HandshakeServerSession)) :
    List (HashResult × HandshakeServerSession) :=
  sessions.filterMap (fun p => (retainSession p.2).map (fun s => (p.1, s)))

/-- The expired public keys collected by time_tick (server.rs). -/
def sessionsExpired (sessions : List (HashResult × HandshakeServerSession)) :
    List PublicKey :=
  sessions.filterMap (fun p => expireSession p.2)

/-- time_tick (server.rs): rotate the rand-values store (the fresh random
value is passed in), drop expired sessions and remove their public-key
index entries. -/
def HandshakeServer.time_tick (st : HandshakeServer) (fresh : RandValue) : HandshakeServer :=
  let expired := sessionsExpired st.handshake_server_sessions
  { st with
      rand_values_store := st.rand_values_store.time_tick fresh
      handshake_server_sessions := sessionsRetain st.handshake_server_sessions
      public_key_to_hash_result := aremoveAll expired st.public_key_to_hash_result }

/-- Iterated time_tick, feeding the fresh random value for tick i from a
stream. -/
def timeTickN (rvs : Nat → RandValue) : Nat → HandshakeServer → HandshakeServer
  | 0, st => st
  | k + 1, st => timeTickN rvs k (st.time_tick (rvs k))

end Offst

namespace OldTc

/-! ### Old networker token channel (src/networker/messenger/token_channel.rs)

`atomic_process_messages_list` runs a batch of messages inside a
transaction object that keeps clones of the original balance and invoice
validator and cancels back to them on failure.  The balance module
(`tc_balance.rs`), the invoice validator, the pending-requests module and
`balance_state_old.rs` are not in the source tree, so the embedding is
parametric: the balance state C, validator state V, pending-requests
state P and receipt type R are type parameters, and the operations the
processor calls on them enter as function parameters.  Mutating Rust
methods returning a flag become functions returning the flag together
with the new state. -/

open Offst (PublicKey InvoiceId)

/-- ProcessMessageError (balance_state_old.rs, not in the source tree):
the variants raised by the reachable arms of `process_message`, modelled
from their use sites in token_channel.rs; validation failures of
LoadFunds receipts are folded into one variant. -/
inductive ProcessMessageError where
  | RemoteMaxDebtTooLarge (proposed_max_debt : Nat) : ProcessMessageError
  | InvoiceIdExists : ProcessMessageError
  | InvalidFundsReceipt : ProcessMessageError
deriving DecidableEq

/-- ProcessTransListError (token_channel.rs): the failing index paired
with the failing message's error. -/
structure ProcessTransListError where
  index : Nat
  process_trans_error : ProcessMessageError
deriving DecidableEq

/-- NetworkerTCMessage (balance_state_old.rs, not in the source tree):
variant list and payloads as matched by `process_message`.  The payloads
of the three arms that the source leaves `unreachable!()` are opaque type
parameters. -/
inductive NetworkerTCMessage (R Rq Rs Fl : Type) where
  | SetRemoteMaxDebt (proposed_max_debt : Nat) : NetworkerTCMessage R Rq Rs Fl
  | SetInvoiceId (invoice_id : InvoiceId) : NetworkerTCMessage R Rq Rs Fl
  | LoadFunds (send_funds_receipt : R) : NetworkerTCMessage R Rq Rs Fl
  | RequestSendMessage (request_send_msg : Rq) : NetworkerTCMessage R Rq Rs Fl
  | ResponseSendMessage (response_send_msg : Rs) : NetworkerTCMessage R Rq Rs Fl
  | FailedSendMessage (failed_send_msg : Fl) : NetworkerTCMessage R Rq Rs Fl

/-- TokenChannel (token_channel.rs), over balance state C, validator
state V and pending-requests state P. -/
structure TokenChannel (C V P : Type) where
  local_public_key : PublicKey
  remote_public_key : PublicKey
  tc_balance : C
  invoice_validator : V
  pending_requests : P
deriving DecidableEq

/-- The operations of the absent modules that `process_message` calls,
passed as parameters: `set_local_max_debt` and `set_remote_invoice_id`
return their success flag next to the new state, `validate_reciept` may
fail with a ProcessMessageError, and `decrease_balance` always
succeeds.  `payment` reads the u128 payment amount of a receipt. -/
structure TcOps (C V R O : Type) where
  setLocalMaxDebt : Nat → C → Bool × C
  setRemoteInvoiceId : InvoiceId → V → Bool × V
  validateReceipt : R → PublicKey → V → Except ProcessMessageError V
  decreaseBalance : Nat → C → C
  payment : R → Nat

/-- One step of TransTokenChannelState::process_message
(token_channel.rs), acting directly on the working balance/validator pair
of the transaction.  `none` is the `unreachable!()` panic of the three
dead arms; the reachable arms return the (optional) output and the new
working state, or the error.  LoadFunds decreases the balance by
`min(receipt.payment, u64::MAX)`, as in `process_load_funds`. -/
def processMessage {C V R Rq Rs Fl O : Type} (ops : TcOps C V R O)
    (local_public_key : PublicKey) (cv : C × V) :
    NetworkerTCMessage R Rq Rs Fl →
    Option (Except ProcessMessageError (Option O × (C × V)))
  | .SetRemoteMaxDebt proposed_max_debt =>
    let (flag, c') := ops.setLocalMaxDebt proposed_max_debt cv.1
    some (if flag then .ok (none, (c', cv.2))
          else .error (ProcessMessageError.RemoteMaxDebtTooLarge proposed_max_debt))
  | .SetInvoiceId invoice_id =>
    let (flag, v') := ops.setRemoteInvoiceId invoice_id cv.2
    some (if flag then .ok (none, (cv.1, v'))
          else .error ProcessMessageError.InvoiceIdExists)
  | .LoadFunds send_funds_receipt =>
    some (match ops.validateReceipt send_funds_receipt local_public_key cv.2 with
          | .ok v' =>
            .ok (none, (ops.decreaseBalance
                          (min (ops.payment send_funds_receipt) (2 ^ 64 - 1)) cv.1, v'))
          | .error e => .error e)
  | .RequestSendMessage _ => none
  | .ResponseSendMessage _ => none
  | .FailedSendMessage _ => none

/-- TransTokenChannelState::process_messages_list (token_channel.rs):
process the batch in order, collecting outputs, stopping at the first
error with its index.  `none` propagates a panic of `process_message`;
note that the set_local_max_debt / set_invoice_id / decrease_balance
effects of earlier messages stay applied in that case, as in the
source. -/
def processMessagesList {C V R Rq Rs Fl O : Type} (ops : TcOps C V R O)
    (local_public_key : PublicKey) :
    Nat → C × V → List O → List (NetworkerTCMessage R Rq Rs Fl) →
    Option (Except ProcessTransListError (List O) × (C × V))
  | _, cv, acc, [] => some (.ok acc.reverse, cv)
  | index, cv, acc, message :: rest =>
    match processMessage ops local_public_key cv message with
    | none => none
    | some (.error e) =>
      some (.error { index := index, process_trans_error := e }, cv)
    | some (.ok (someOutput, cv')) =>
      processMessagesList ops local_public_key (index + 1) cv'
        (match someOutput with
         | some out => out :: acc
         | none => acc) rest

/-- TokenChannel::atomic_process_messages_list (token_channel.rs): run the
batch inside the transaction; on an error, `cancel` restores tc_balance
and invoice_validator from the clones taken at the start and rolls the
pending requests back (they are never touched by the reachable arms).
`none` is a panic, on which no cancel runs. -/
def atomic_process_messages_list {C V P R Rq Rs Fl O : Type} (ops : TcOps C V R O)
    (tc : TokenChannel C V P) (transactions : List (NetworkerTCMessage R Rq Rs Fl)) :
    Option (Except ProcessTransListError (List O) × TokenChannel C V P) :=
  match processMessagesList ops tc.local_public_key 0
          (tc.tc_balance, tc.invoice_validator) [] transactions with
  | none => none
  | some (.error e, _) => some (.error e, tc)
  | some (.ok outputs, (c', v')) =>
    some (.ok outputs, { tc with tc_balance := c', invoice_validator := v' })

/-- Reference evaluator for a batch: apply the messages one by one to the
balance/validator pair, reporting the position of the first failure
relative to the start of the batch.  Stated independently of the
transaction plumbing; `atomic_process_messages_list` is proved to refine
it. -/
def applyBatch {C V R Rq Rs Fl O : Type} (ops : TcOps C V R O) (pk : PublicKey) :
    C × V → List (NetworkerTCMessage R Rq Rs Fl) →
    Option (Except (Nat × ProcessMessageError) (C × V))
  | cv, [] => some (.ok cv)
  | cv, message :: rest =>
    match @processMessage C V R Rq Rs Fl O ops pk cv message with
    | none => none
    | some (.error e) => some (.error (0, e))
    | some (.ok (_, cv')) =>
      match applyBatch ops pk cv' rest with
      | none => none
      | some (.error (i, e)) => some (.error (i + 1, e))
      | some (.ok cvf) => some (.ok cvf)

end OldTc

namespace Offst

/-! ### Wrappers and auxiliary definitions used by the stated claims -/

/-- The handler state after a ResetFriendChannel control message, as seen
by handle_control_message: mutations are applied only on the success
path, so an error leaves the funder state untouched. -/
def run_reset_friend_channel (st : FunderState) (msg : ResetFriendChannel)
    (rand_nonce : RandValue) :
    FunderState × Except HandleControlError (FriendMoveToken × List PendingFriendRequest) :=
  match control_reset_friend_channel st msg rand_nonce with
  | .ok (st', mt, cancelled) => (st', .ok (mt, cancelled))
  | .error e => (st, .error e)

/-- Erase the fields that the canonical serialization does not write:
the invoice_id of a RequestSendFunds and the rand_nonce of a
FailureSendFunds. -/
def FriendTcOp.eraseUnsigned : FriendTcOp → FriendTcOp
  | .RequestSendFunds r =>
    .RequestSendFunds { r with invoice_id := ⟨List.replicate 32 0, by simp⟩ }
  | .FailureSendFunds f =>
    .FailureSendFunds { f with rand_nonce := ⟨List.replicate 16 0, by simp⟩ }
  | op => op

/-- The route length of an operation fits in a u64, as every Rust Vec
length does (usize_to_u64 in FriendsRoute::to_bytes never fails). -/
def FriendTcOp.routeBounded : FriendTcOp → Bool
  | .RequestSendFunds r => r.route.public_keys.length < 2 ^ 64
  | _ => true

/-- A byte string filled with one byte value. -/
def fillBytes (n k : Nat) : Bytes n := ⟨List.replicate n k, by simp⟩

/-- A concrete remote reset-terms value used in witness statements. -/
def rtW : ResetTerms :=
  { reset_token := fillBytes 32 6, inconsistency_counter := 2, balance_for_reset := 7 }

/-- A concrete friend sitting in an Inconsistent channel whose remote
reset terms are rtW, used in witness statements. -/
def friendInconsistentW : FriendState :=
  { channel_status := ChannelStatus.Inconsistent
      { local_reset_terms :=
          { reset_token := fillBytes 32 5, inconsistency_counter := 1, balance_for_reset := 0 }
        opt_remote_reset_terms := some rtW }
    status := FriendStatus.Enable
    wanted_remote_max_debt := 0
    pending_user_requests := [] }

/-- A concrete funder state holding friendInconsistentW under key
fillBytes 32 2, used in witness statements. -/
def stInconsistentW : FunderState :=
  { local_public_key := fillBytes 32 1
    friends := [(fillBytes 32 2, friendInconsistentW)]
    ready_receipts := [] }

/-- A route of 127 equal public keys: its serialized RequestSendFunds
operation occupies 1 + 16 + 8 + 127 * 32 + 16 = 4105 bytes, above the
4096-byte move-token budget. -/
def bigRouteW : FriendsRoute :=
  { public_keys := List.replicate 127 (fillBytes 32 7) }

/-- A user request over bigRouteW. -/
def bigRequestW : UserRequestSendFunds :=
  { request_id := fillBytes 16 2, route := bigRouteW
    invoice_id := fillBytes 32 3, dest_payment := (20 : U128) }

/-- A funder state with no friends and no receipts. -/
def stPlainW : FunderState :=
  { local_public_key := fillBytes 32 1, friends := [], ready_receipts := [] }

/-- An ephemeral state with nobody online. -/
def ephPlainW : Ephemeral := { liveness_online := [] }

/-- A concrete ready receipt. -/
def rcptW : SendFundsReceipt :=
  { response_hash := fillBytes 32 8, invoice_id := fillBytes 32 3
    dest_payment := (20 : U128), signature := fillBytes 64 9 }

/-- A funder state whose ready_receipts holds rcptW under the request id
fillBytes 16 2. -/
def stReceiptW : FunderState :=
  { local_public_key := fillBytes 32 1, friends := []
    ready_receipts := [(fillBytes 16 2, rcptW)] }

/-- A concrete listen pool over Nat relay addresses with one connected
relay and backoff_ticks = 2, used in witness statements. -/
def poolW : PoolState Nat :=
  { relays := [(0, { friends := [], status := RelayStatus.Connected })]
    backoff_ticks := 2 }

/-- A concrete handshake responder state: one known neighbor without a
remote address, one nonce in the sliding window, no sessions. -/
def hsServerW : HandshakeServer :=
  { local_public_key := fillBytes 32 1
    neighbors := [(fillBytes 32 2, { remote_addr := none })]
    rand_values_store := { ticks_left := 4, values := [fillBytes 16 10] }
    handshake_server_sessions := []
    public_key_to_hash_result := [] }

/-- hsServerW with an empty neighbor table. -/
def hsServerEmptyW : HandshakeServer :=
  { local_public_key := fillBytes 32 1
    neighbors := []
    rand_values_store := { ticks_left := 4, values := [fillBytes 16 10] }
    handshake_server_sessions := []
    public_key_to_hash_result := [] }

/-- An ExchangeActive whose responder nonce has rotated out of the
window. -/
def hsMsgStaleW : ExchangeActive :=
  { initiator_public_key := fillBytes 32 2
    initiator_rand_nonce := fillBytes 16 11
    responder_rand_nonce := fillBytes 16 12
    dh_public_key := fillBytes 32 13
    key_salt := fillBytes 32 14
    signature := fillBytes 64 15 }

/-- An ExchangeActive whose responder nonce sits in hsServerW's
window. -/
def hsMsgGoodW : ExchangeActive :=
  { initiator_public_key := fillBytes 32 2
    initiator_rand_nonce := fillBytes 16 11
    responder_rand_nonce := fillBytes 16 10
    dh_public_key := fillBytes 32 13
    key_salt := fillBytes 32 14
    signature := fillBytes 64 15 }

/-- A concrete server session with the full timeout budget. -/
def sessW : HandshakeServerSession :=
  { remote_public_key := fillBytes 32 2
    recv_rand_nonce := fillBytes 16 11
    sent_rand_nonce := fillBytes 16 10
    sent_key_salt := fillBytes 32 16
    recv_key_salt := fillBytes 32 14
    remote_dh_public_key := fillBytes 32 13
    timeout := HANDSHAKE_SESSION_TIMEOUT }

/-- hsServerW holding sessW under the hash fillBytes 32 17. -/
def hsServerSessW : HandshakeServer :=
  { local_public_key := fillBytes 32 1
    neighbors := [(fillBytes 32 2, { remote_addr := none })]
    rand_values_store := { ticks_left := 4, values := [fillBytes 16 10] }
    handshake_server_sessions := [(fillBytes 32 17, sessW)]
    public_key_to_hash_result := [(fillBytes 32 2, fillBytes 32 17)] }

end Offst

namespace OldTc

/-- Concrete operations over Nat balance/validator states, used in the
witness statements: a max debt is accepted iff it is at most 100, and
setting the remote invoice id always reports an existing id. -/
def opsW : TcOps Nat Nat Nat Unit :=
  { setLocalMaxDebt := fun d c => (decide (d ≤ 100), if d ≤ 100 then d else c)
    setRemoteInvoiceId := fun _ v => (false, v)
    validateReceipt := fun r _ v =>
      if r = 0 then .error ProcessMessageError.InvalidFundsReceipt else .ok v
    decreaseBalance := fun n c => c - n
    payment := fun r => r }

/-- A concrete token channel over Nat states. -/
def tcW : TokenChannel Nat Nat Nat :=
  { local_public_key := Offst.fillBytes 32 1
    remote_public_key := Offst.fillBytes 32 2
    tc_balance := 50
    invoice_validator := 7
    pending_requests := 3 }

/-- A batch whose second message fails under opsW. -/
def msgsW : List (NetworkerTCMessage Nat Unit Unit Unit) :=
  [NetworkerTCMessage.SetRemoteMaxDebt 5,
   NetworkerTCMessage.SetInvoiceId (Offst.fillBytes 32 9)]

end OldTc

namespace Offst

/-- A RequestSendFunds operation over the empty route. -/
def c2opA : FriendTcOp :=
  FriendTcOp.RequestSendFunds
    { request_id := fillBytes 16 1, route := { public_keys := [] }
      dest_payment := (5 : U128), invoice_id := fillBytes 32 1, freeze_links := [] }

/-- c2opA with a different invoice_id. -/
def c2opB : FriendTcOp :=
  FriendTcOp.RequestSendFunds
    { request_id := fillBytes 16 1, route := { public_keys := [] }
      dest_payment := (5 : U128), invoice_id := fillBytes 32 2, freeze_links := [] }

end Offst

namespace Offst

/-! ## Theorems -/

/-! ### Association-list lemmas -/

theorem alookup_eq_none_of_not_mem_keys {α β : Type} [DecidableEq α] {a : α}
    {l : List (α × β)} (h : a ∉ l.map Prod.fst) : alookup a l = none := by
  induction l with
  | nil => rfl
  | cons p rest ih =>
    obtain ⟨k, v⟩ := p
    simp only [List.map_cons, List.mem_cons] at h
    push_neg at h
    have hk : ¬ k = a := fun hc => h.1 hc.symm
    simp only [alookup, if_neg hk]
    exact ih h.2

theorem mem_of_alookup_eq_some {α β : Type} [DecidableEq α] {a : α} {b : β}
    {l : List (α × β)} (h : alookup a l = some b) : (a, b) ∈ l := by
  induction l with
  | nil => simp [alookup] at h
  | cons p rest ih =>
    obtain ⟨k, v⟩ := p
    by_cases hk : k = a
    · simp only [alookup, if_pos hk] at h
      cases h
      subst hk
      exact List.mem_cons_self _ _
    · simp only [alookup, if_neg hk] at h
      exact List.mem_cons_of_mem _ (ih h)

theorem alookup_put {α β : Type} [DecidableEq α] (l : List (α × β)) (a : α) (b' : β) :
    alookup a (l.map fun p => if p.1 = a then (a, b') else p) =
      (alookup a l).map (fun _ => b') := by
  induction l with
  | nil => rfl
  | cons p rest ih =>
    obtain ⟨k, v⟩ := p
    by_cases hk : k = a
    · subst hk
      simp [alookup]
    · simp [alookup, hk, ih]

theorem alookup_put_ne {α β : Type} [DecidableEq α] (l : List (α × β)) {a q : α}
    (hq : q ≠ a) (b' : β) :
    alookup q (l.map fun p => if p.1 = a then (a, b') else p) = alookup q l := by
  induction l with
  | nil => rfl
  | cons p rest ih =>
    obtain ⟨k, v⟩ := p
    by_cases hk : k = a
    · subst hk
      have hkq : ¬ k = q := fun hc => hq hc.symm
      simp [alookup, hkq, ih]
    · simp [alookup, hk, ih]

theorem alookup_aremove_self {α β : Type} [DecidableEq α] (l : List (α × β)) (a : α) :
    alookup a (aremove a l) = none := by
  induction l with
  | nil => rfl
  | cons p rest ih =>
    obtain ⟨k, v⟩ := p
    by_cases hk : k = a
    · simp [aremove, hk, ih]
    · simp [aremove, alookup, hk, ih]

theorem alookup_aremove_other {α β : Type} [DecidableEq α] (l : List (α × β)) {a q : α}
    (hq : q ≠ a) : alookup q (aremove a l) = alookup q l := by
  induction l with
  | nil => rfl
  | cons p rest ih =>
    obtain ⟨k, v⟩ := p
    by_cases hk : k = a
    · subst hk
      have hkq : ¬ k = q := fun hc => hq hc.symm
      simp [aremove, alookup, hkq, ih]
    · simp [aremove, alookup, hk, ih]

theorem alookup_aremoveAll_mem {α β : Type} [DecidableEq α] (l : List (α × β))
    {bad : List α} {a : α} (ha : a ∈ bad) : alookup a (aremoveAll bad l) = none := by
  induction l with
  | nil => rfl
  | cons p rest ih =>
    obtain ⟨k, v⟩ := p
    by_cases hk : k ∈ bad
    · simp [aremoveAll, hk, ih]
    · have hka : ¬ k = a := fun hc => hk (hc ▸ ha)
      simp [aremoveAll, alookup, hk, hka, ih]

theorem alookup_aremoveAll_not_mem {α β : Type} [DecidableEq α] (l : List (α × β))
    {bad : List α} {a : α} (ha : a ∉ bad) : alookup a (aremoveAll bad l) = alookup a l := by
  induction l with
  | nil => rfl
  | cons p rest ih =>
    obtain ⟨k, v⟩ := p
    by_cases hk : k ∈ bad
    · have hka : ¬ k = a := fun hc => ha (hc ▸ hk)
      simp [aremoveAll, alookup, hk, hka, ih]
    · simp [aremoveAll, alookup, hk, ih]

theorem get_friend_put_friend (st : FunderState) (pk : PublicKey) (f f₀ : FriendState)
    (h : st.get_friend pk = some f₀) : (st.put_friend pk f).get_friend pk = some f := by
  show alookup pk (st.friends.map fun p => if p.1 = pk then (pk, f) else p) = some f
  rw [alookup_put]
  unfold FunderState.get_friend at h
  rw [h]
  rfl

/-! ### Lengths of the canonical serialization -/

theorem natBEbytes_length (k n : Nat) : (natBEbytes k n).length = k := by
  induction k generalizing n with
  | zero => rfl
  | succ k ih => simp [natBEbytes, ih]

theorem keysBytes_length (l : List PublicKey) : (keysBytes l).length = 32 * l.length := by
  induction l with
  | nil => rfl
  | cons pk rest ih =>
    simp only [keysBytes, List.length_append, List.length_cons, ih, pk.2]
    ring

theorem request_op_bytes_count (r : RequestSendFunds) (hl : r.freeze_links = []) :
    (FriendTcOp.RequestSendFunds r).approx_bytes_count =
      41 + 32 * r.route.public_keys.length := by
  simp only [FriendTcOp.approx_bytes_count, FriendTcOp.to_bytes, RequestSendFunds.to_bytes,
    FriendsRoute.to_bytes, hl, linksBytes, List.length_cons, List.length_append,
    natBEbytes_length, keysBytes_length, r.request_id.2, List.length_nil]
  ring

/-! ### C3 — failed user requests produce exactly one failure response -/

/-- C3: whenever control_request_send_funds_inner fails, the handler emits
exactly one ResponseReceived carrying the request's request_id with
result Failure reporting the local public key and leaves the funder state
unchanged; and the error is one of the eight user-request failure
reasons. -/
theorem claim_c3_request_failure_response (st : FunderState) (eph : Ephemeral)
    (u : UserRequestSendFunds) (e : HandleControlError)
    (h : control_request_send_funds_inner st eph u = .error e) :
    control_request_send_funds st eph u =
      (st, [{ request_id := u.request_id
              result := ResponseSendFundsResult.Failure st.local_public_key }], some e)
    ∧ (e = HandleControlError.FriendDoesNotExist ∨ e = HandleControlError.UserRequestInvalid
       ∨ e = HandleControlError.NotFirstInRoute ∨ e = HandleControlError.InvalidRoute
       ∨ e = HandleControlError.RequestAlreadyInProgress
       ∨ e = HandleControlError.PendingUserRequestsFull
       ∨ e = HandleControlError.FriendNotReady
       ∨ e = HandleControlError.BlockedByFreezeGuard) := by
  constructor
  · unfold control_request_send_funds
    rw [h]
  · unfold control_request_send_funds_inner at h
    repeat' split at h
    all_goals simp_all [ite_eq_iff]

/-- Witness for C3 at a concrete input: an empty funder state and a
request whose route is empty fails (with NotFirstInRoute) and produces
the single failure response. -/
theorem claim_c3_request_failure_response_witness :
    control_request_send_funds
        { local_public_key := fillBytes 32 1, friends := [], ready_receipts := [] }
        { liveness_online := [] }
        { request_id := fillBytes 16 2, route := { public_keys := [] }
          invoice_id := fillBytes 32 3, dest_payment := (20 : Fin (2 ^ 128)) } =
      ({ local_public_key := fillBytes 32 1, friends := [], ready_receipts := [] },
       [{ request_id := fillBytes 16 2
          result := ResponseSendFundsResult.Failure (fillBytes 32 1) }],
       some HandleControlError.NotFirstInRoute) :=
  (claim_c3_request_failure_response
    { local_public_key := fillBytes 32 1, friends := [], ready_receipts := [] }
    { liveness_online := [] }
    { request_id := fillBytes 16 2, route := { public_keys := [] }
      invoice_id := fillBytes 32 3, dest_payment := (20 : Fin (2 ^ 128)) }
    HandleControlError.NotFirstInRoute (by decide)).1

/-! ### C4 — ResetFriendChannel failure cases -/

/-- C4: handling ResetFriendChannel fails with FriendDoesNotExist for an
unknown friend, with NotInvitedToReset when the channel is Consistent or
no remote reset terms are stored, and with ResetTokenMismatch when the
supplied current_token differs from the remote's reset_token; in each
case the funder state is unchanged. -/
theorem claim_c4_reset_failure_cases (st : FunderState) (msg : ResetFriendChannel)
    (rand_nonce : RandValue) :
    (st.get_friend msg.friend_public_key = none →
      run_reset_friend_channel st msg rand_nonce =
        (st, .error HandleControlError.FriendDoesNotExist))
    ∧ (∀ friend tc, st.get_friend msg.friend_public_key = some friend →
        friend.channel_status = ChannelStatus.Consistent tc →
        run_reset_friend_channel st msg rand_nonce =
          (st, .error HandleControlError.NotInvitedToReset))
    ∧ (∀ friend ci, st.get_friend msg.friend_public_key = some friend →
        friend.channel_status = ChannelStatus.Inconsistent ci →
        ci.opt_remote_reset_terms = none →
        run_reset_friend_channel st msg rand_nonce =
          (st, .error HandleControlError.NotInvitedToReset))
    ∧ (∀ friend ci rt, st.get_friend msg.friend_public_key = some friend →
        friend.channel_status = ChannelStatus.Inconsistent ci →
        ci.opt_remote_reset_terms = some rt →
        rt.reset_token ≠ msg.current_token →
        run_reset_friend_channel st msg rand_nonce =
          (st, .error HandleControlError.ResetTokenMismatch)) := by
  refine ⟨?_, ?_, ?_, ?_⟩
  · intro h
    simp only [run_reset_friend_channel, control_reset_friend_channel, h]
  · intro friend tc h hc
    simp only [run_reset_friend_channel, control_reset_friend_channel, h, hc]
  · intro friend ci h hc hr
    simp only [run_reset_friend_channel, control_reset_friend_channel, h, hc, hr]
  · intro friend ci rt h hc hr hne
    simp only [run_reset_friend_channel, control_reset_friend_channel, h, hc, hr]
    rw [if_pos hne]

/-- Witness for C4 at concrete inputs: an unknown friend yields
FriendDoesNotExist, and a wrong current_token yields ResetTokenMismatch,
both leaving the state unchanged. -/
theorem claim_c4_reset_failure_cases_witness :
    run_reset_friend_channel
        { local_public_key := fillBytes 32 1, friends := [], ready_receipts := [] }
        { friend_public_key := fillBytes 32 2, current_token := fillBytes 32 3 }
        (fillBytes 16 4) =
      ({ local_public_key := fillBytes 32 1, friends := [], ready_receipts := [] },
       .error HandleControlError.FriendDoesNotExist)
    ∧ run_reset_friend_channel stInconsistentW
        { friend_public_key := fillBytes 32 2, current_token := fillBytes 32 3 }
        (fillBytes 16 4) =
      (stInconsistentW, .error HandleControlError.ResetTokenMismatch) := by
  constructor
  · exact (claim_c4_reset_failure_cases _ _ _).1 (by decide)
  · exact (claim_c4_reset_failure_cases stInconsistentW _ _).2.2.2 friendInconsistentW _ rtW
      (by decide) rfl rfl (by decide)

end Offst

namespace Offst

/-! ### C1 — ResetFriendChannel success path -/

/-- C1: when ResetFriendChannel succeeds (the friend exists, its channel
is Inconsistent with stored remote reset terms, and current_token equals
the remote's reset_token), the handler constructs a MoveToken with empty
operations, old_token = the remote's reset_token, the remote's proposed
inconsistency_counter, move_token_counter 0, balance equal to the
remote's balance_for_reset, both pending debts 0 and the fresh rand
nonce; and after the LocalReset mutation the friend's channel is a fresh
Consistent channel carrying no local pending requests (they have all
been cancelled). -/
theorem claim_c1_reset_success (st : FunderState) (msg : ResetFriendChannel)
    (rand_nonce : RandValue) (friend : FriendState) (ci : ChannelInconsistent)
    (rt : ResetTerms)
    (hf : st.get_friend msg.friend_public_key = some friend)
    (hc : friend.channel_status = ChannelStatus.Inconsistent ci)
    (hr : ci.opt_remote_reset_terms = some rt)
    (ht : rt.reset_token = msg.current_token) :
    ∃ st' cancelled mt,
      control_reset_friend_channel st msg rand_nonce = .ok (st', mt, cancelled)
      ∧ mt.operations = []
      ∧ mt.old_token = rt.reset_token
      ∧ mt.inconsistency_counter = rt.inconsistency_counter
      ∧ mt.move_token_counter = 0
      ∧ mt.balance = rt.balance_for_reset
      ∧ mt.local_pending_debt = 0
      ∧ mt.remote_pending_debt = 0
      ∧ mt.rand_nonce = rand_nonce
      ∧ st'.get_friend msg.friend_public_key = some
          { friend with
              channel_status := ChannelStatus.Consistent (tokenChannelFromReset mt) }
      ∧ (tokenChannelFromReset mt).mutual_credit.pending_local_requests = [] := by
  have hne : ¬ rt.reset_token ≠ msg.current_token := fun hne => hne ht
  have hrun : control_reset_friend_channel st msg rand_nonce =
      .ok (st.put_friend msg.friend_public_key
             { friend with
                 channel_status := ChannelStatus.Consistent (tokenChannelFromReset
                   { operations := [], old_token := rt.reset_token, inconsistency_counter := rt.inconsistency_counter, move_token_counter := 0, balance := rt.balance_for_reset, local_pending_debt := 0, remote_pending_debt := 0, rand_nonce := rand_nonce }) },
           { operations := [], old_token := rt.reset_token, inconsistency_counter := rt.inconsistency_counter, move_token_counter := 0, balance := rt.balance_for_reset, local_pending_debt := 0, remote_pending_debt := 0, rand_nonce := rand_nonce }, []) := by
    simp only [control_reset_friend_channel, hf, hc, hr]
    rw [if_neg hne]
    simp only [cancel_local_pending_requests, hf, hc]
  refine ⟨_, _, _, hrun, rfl, rfl, rfl, rfl, rfl, rfl, rfl, rfl, ?_, rfl⟩
  exact get_friend_put_friend st msg.friend_public_key _ friend hf

/-- Witness for C1 at a concrete input: resetting the channel of
stInconsistentW's friend with the remote's proposed token. -/
theorem claim_c1_reset_success_witness :
    ∃ st' cancelled mt,
      control_reset_friend_channel stInconsistentW
        { friend_public_key := fillBytes 32 2, current_token := fillBytes 32 6 }
        (fillBytes 16 4) = .ok (st', mt, cancelled)
      ∧ mt.operations = []
      ∧ mt.old_token = rtW.reset_token
      ∧ mt.inconsistency_counter = rtW.inconsistency_counter
      ∧ mt.move_token_counter = 0
      ∧ mt.balance = rtW.balance_for_reset
      ∧ mt.local_pending_debt = 0
      ∧ mt.remote_pending_debt = 0
      ∧ mt.rand_nonce = fillBytes 16 4
      ∧ st'.get_friend (fillBytes 32 2) = some
          { friendInconsistentW with
              channel_status := ChannelStatus.Consistent (tokenChannelFromReset mt) }
      ∧ (tokenChannelFromReset mt).mutual_credit.pending_local_requests = [] :=
  claim_c1_reset_success stInconsistentW
    { friend_public_key := fillBytes 32 2, current_token := fillBytes 32 6 }
    (fillBytes 16 4) friendInconsistentW _ rtW rfl rfl rfl (by decide)

/-! ### Cycle-freedom of routes -/

theorem cycleFreeGo_eq_true_iff (l seen : List PublicKey) :
    cycleFreeGo seen l = true ↔ l.Nodup ∧ ∀ x ∈ l, x ∉ seen := by
  induction l generalizing seen with
  | nil => simp [cycleFreeGo]
  | cons pk rest ih =>
    by_cases hp : pk ∈ seen
    · simp only [cycleFreeGo, if_pos hp]
      constructor
      · intro hfalse
        cases hfalse
      · rintro ⟨_, hall⟩
        exact absurd hp (hall pk (List.mem_cons_self _ _))
    · have step : cycleFreeGo seen (pk :: rest) = cycleFreeGo (pk :: seen) rest := by
        simp [cycleFreeGo, hp]
      rw [step, ih]
      constructor
      · rintro ⟨hnd, hall⟩
        refine ⟨List.nodup_cons.mpr ⟨?_, hnd⟩, ?_⟩
        · intro hmem
          exact hall pk hmem (List.mem_cons_self _ _)
        · intro x hx
          rcases List.mem_cons.mp hx with hx | hx
          · exact hx ▸ hp
          · intro hs
            exact hall x hx (List.mem_cons_of_mem _ hs)
      · rintro ⟨hnd, hall⟩
        obtain ⟨hpk, hnd'⟩ := List.nodup_cons.mp hnd
        refine ⟨hnd', ?_⟩
        intro x hx hmem
        rcases List.mem_cons.mp hmem with hx' | hx'
        · exact hpk (hx' ▸ hx)
        · exact hall x (List.mem_cons_of_mem _ hx) hx'

/-- is_cycle_free decides exactly the no-repeated-key property. -/
theorem is_cycle_free_iff_nodup (r : FriendsRoute) :
    r.is_cycle_free = true ↔ r.public_keys.Nodup := by
  unfold FriendsRoute.is_cycle_free
  rw [cycleFreeGo_eq_true_iff]
  simp

end Offst

namespace Offst

/-! ### C5 — route validation of user requests (amended) -/

/-- C5 (amended): for a UserRequestSendFunds that passes the size
validity check and has no ready receipt stored, handling fails with
NotFirstInRoute unless the route's first key is the local public key;
when the first key is local, it fails with InvalidRoute exactly when the
route is shorter than 2 or some key repeats; and is_cycle_free holds
exactly when no key repeats. -/
theorem claim_c5_route_validation (st : FunderState) (eph : Ephemeral)
    (u : UserRequestSendFunds)
    (hv : check_user_request_valid u = some ())
    (hr : alookup u.request_id st.ready_receipts = none) :
    (u.route.public_keys.head? ≠ some st.local_public_key →
      control_request_send_funds_inner st eph u = .error HandleControlError.NotFirstInRoute)
    ∧ (u.route.public_keys.head? = some st.local_public_key →
        (control_request_send_funds_inner st eph u = .error HandleControlError.InvalidRoute
          ↔ (u.route.len < 2 ∨ ¬ u.route.public_keys.Nodup)))
    ∧ (u.route.is_cycle_free = true ↔ u.route.public_keys.Nodup) := by
  refine ⟨?_, ?_, is_cycle_free_iff_nodup u.route⟩
  · intro hne
    cases hhead : u.route.public_keys.head? with
    | none => simp only [control_request_send_funds_inner, hv, hr, hhead]
    | some first =>
      have hfi : ¬ first = st.local_public_key := fun hc => hne (by rw [hhead, hc])
      simp only [control_request_send_funds_inner, hv, hr, hhead]
      rw [if_neg hfi]
  · intro hhead
    by_cases hbad : u.route.len < 2 ∨ ¬ u.route.is_cycle_free
    · have hres : control_request_send_funds_inner st eph u =
          .error HandleControlError.InvalidRoute := by
        simp only [control_request_send_funds_inner, hv, hr, hhead, if_true]
        rw [if_pos hbad]
      rw [hres]
      refine iff_of_true rfl ?_
      rcases hbad with hlen | hcyc
      · exact Or.inl hlen
      · right
        rw [← is_cycle_free_iff_nodup]
        exact fun hc => hcyc hc
    · have hbadneg := hbad
      push_neg at hbad
      obtain ⟨hlen, hcyc⟩ := hbad
      apply iff_of_false
      · intro hres
        have hlen2 : 1 < u.route.public_keys.length := by
          unfold FriendsRoute.len at hlen
          omega
        have hget : u.route.public_keys.get? 1 = some (u.route.public_keys[1]) := by
          rw [List.get?_eq_getElem?]
          exact List.getElem?_eq_getElem hlen2
        simp only [control_request_send_funds_inner, hv, hr, hhead, if_true] at hres
        rw [if_neg hbadneg, hget] at hres
        repeat' split at hres
        all_goals simp_all [ite_eq_iff]
      · intro hrhs
        rcases hrhs with h | h
        · exact absurd h (by omega)
        · exact absurd ((is_cycle_free_iff_nodup u.route).mp hcyc) h

/-- The oversized request fails the size validity check: its serialized
operation takes 41 + 32 * 127 = 4105 bytes, above MAX_MOVE_TOKEN_LENGTH. -/
theorem check_user_request_valid_bigRequestW :
    check_user_request_valid bigRequestW = none := by
  unfold check_user_request_valid
  rw [request_op_bytes_count _ rfl]
  norm_num [bigRequestW, bigRouteW, UserRequestSendFunds.to_request,
    List.length_replicate, MAX_MOVE_TOKEN_LENGTH]

/-- Counterexample for C5 as frozen: the size validity check runs before
the first-in-route check, so an oversized request with a foreign first
key fails with UserRequestInvalid, not NotFirstInRoute, although no
receipt is stored for it. -/
theorem claim_c5_counterexample :
    alookup bigRequestW.request_id stPlainW.ready_receipts = none
    ∧ bigRequestW.route.public_keys.head? ≠ some stPlainW.local_public_key
    ∧ control_request_send_funds_inner stPlainW ephPlainW bigRequestW =
        .error HandleControlError.UserRequestInvalid
    ∧ HandleControlError.UserRequestInvalid ≠ HandleControlError.NotFirstInRoute := by
  refine ⟨rfl, by decide, ?_, by decide⟩
  simp only [control_request_send_funds_inner, check_user_request_valid_bigRequestW]

/-- Witness for C5 at concrete inputs: a foreign-headed short route fails
with NotFirstInRoute, and a local-headed route with a repeated key fails
with InvalidRoute. -/
theorem claim_c5_route_validation_witness :
    control_request_send_funds_inner stPlainW ephPlainW
        { request_id := fillBytes 16 2
          route := { public_keys := [fillBytes 32 5, fillBytes 32 6] }
          invoice_id := fillBytes 32 3, dest_payment := (20 : U128) } =
      .error HandleControlError.NotFirstInRoute
    ∧ control_request_send_funds_inner stPlainW ephPlainW
        { request_id := fillBytes 16 2
          route := { public_keys := [fillBytes 32 1, fillBytes 32 1] }
          invoice_id := fillBytes 32 3, dest_payment := (20 : U128) } =
      .error HandleControlError.InvalidRoute := by
  constructor
  · exact (claim_c5_route_validation stPlainW ephPlainW _ (by decide) rfl).1 (by decide)
  · exact ((claim_c5_route_validation stPlainW ephPlainW _ (by decide) rfl).2.1
      (by decide)).mpr (Or.inr (by decide))

/-! ### C6 — receipt lifecycle (amended) -/

/-- C6 (amended): a stored ready receipt is returned again as a Success
response by any later size-valid RequestSendFunds with the same
request_id, without being erased and without any other mutation; a
ReceiptAck carrying that request_id removes exactly that receipt; and a
ReceiptAck whose request_id has no stored receipt fails with
ReceiptDoesNotExist leaving the state unchanged. -/
theorem claim_c6_receipt_lifecycle (st : FunderState) (eph : Ephemeral)
    (u : UserRequestSendFunds) (receipt : SendFundsReceipt)
    (hv : check_user_request_valid u = some ())
    (hr : alookup u.request_id st.ready_receipts = some receipt) :
    control_request_send_funds st eph u =
      (st, [{ request_id := u.request_id
              result := ResponseSendFundsResult.Success receipt }], none)
    ∧ (∀ hash st', control_receipt_ack st
          { request_id := u.request_id, receipt_hash := hash } = .ok st' →
        alookup u.request_id st'.ready_receipts = none
        ∧ (∀ q, q ≠ u.request_id → alookup q st'.ready_receipts = alookup q st.ready_receipts)
        ∧ st'.friends = st.friends ∧ st'.local_public_key = st.local_public_key)
    ∧ (∀ (st₂ : FunderState) (ack : ReceiptAck),
        alookup ack.request_id st₂.ready_receipts = none →
          control_receipt_ack st₂ ack = .error HandleControlError.ReceiptDoesNotExist) := by
  refine ⟨?_, ?_, ?_⟩
  · simp only [control_request_send_funds, control_request_send_funds_inner, hv, hr]
  · intro hash st' hok
    simp only [control_receipt_ack, hr, Option.isSome_some, if_pos] at hok
    cases hok
    refine ⟨alookup_aremove_self _ _, ?_, rfl, rfl⟩
    intro q hq
    exact alookup_aremove_other _ hq
  · intro st₂ ack hnone
    simp only [control_receipt_ack, hnone, Option.isSome_none]
    rfl

/-- Counterexample for C6 as frozen: the size validity check runs before
the ready-receipt lookup, so an oversized request with the receipt's
request_id is answered with a Failure, not with the stored receipt. -/
theorem claim_c6_counterexample :
    alookup bigRequestW.request_id stReceiptW.ready_receipts = some rcptW
    ∧ control_request_send_funds stReceiptW ephPlainW bigRequestW =
        (stReceiptW,
         [{ request_id := fillBytes 16 2
            result := ResponseSendFundsResult.Failure (fillBytes 32 1) }],
         some HandleControlError.UserRequestInvalid)
    ∧ ResponseSendFundsResult.Failure (fillBytes 32 1) ≠
        ResponseSendFundsResult.Success rcptW := by
  refine ⟨by decide, ?_, by decide⟩
  simp only [control_request_send_funds, control_request_send_funds_inner,
    check_user_request_valid_bigRequestW]
  rfl

/-- Witness for C6 at concrete inputs: resending a small request with the
stored receipt's id returns Success and keeps the receipt; acking an
unknown id fails with ReceiptDoesNotExist. -/
theorem claim_c6_receipt_lifecycle_witness :
    control_request_send_funds stReceiptW ephPlainW
        { request_id := fillBytes 16 2
          route := { public_keys := [fillBytes 32 1, fillBytes 32 2] }
          invoice_id := fillBytes 32 3, dest_payment := (20 : U128) } =
      (stReceiptW,
       [{ request_id := fillBytes 16 2
          result := ResponseSendFundsResult.Success rcptW }], none)
    ∧ control_receipt_ack stPlainW
        { request_id := fillBytes 16 2, receipt_hash := fillBytes 32 4 } =
      .error HandleControlError.ReceiptDoesNotExist := by
  constructor
  · exact (claim_c6_receipt_lifecycle stReceiptW ephPlainW _ rcptW (by decide) (by decide)).1
  · exact (claim_c6_receipt_lifecycle stReceiptW ephPlainW
      { request_id := fillBytes 16 2
        route := { public_keys := [fillBytes 32 1, fillBytes 32 2] }
        invoice_id := fillBytes 32 3, dest_payment := (20 : U128) } rcptW
      (by decide) (by decide)).2.2 stPlainW
      { request_id := fillBytes 16 2, receipt_hash := fillBytes 32 4 } (by decide)

end Offst

namespace Offst

/-! ### Listen-pool lemmas -/

theorem alookup_map_val {α β : Type} [DecidableEq α] (g : β → β) (l : List (α × β)) (a : α) :
    alookup a (l.map fun p => (p.1, g p.2)) = (alookup a l).map g := by
  induction l with
  | nil => rfl
  | cons p rest ih =>
    obtain ⟨k, v⟩ := p
    by_cases hk : k = a
    · simp [alookup, hk]
    · simp [alookup, hk, ih]

theorem alookup_map_cond {α β : Type} [DecidableEq α] (c : α → Prop) [DecidablePred c]
    (g : β → β) (l : List (α × β)) (a : α) :
    alookup a (l.map fun p => if c p.1 then (p.1, g p.2) else p) =
      (alookup a l).map (fun b => if c a then g b else b) := by
  induction l with
  | nil => rfl
  | cons p rest ih =>
    obtain ⟨k, v⟩ := p
    by_cases hk : k = a
    · subst hk
      by_cases hc : c k
      · simp [alookup, hc]
      · simp [alookup, hc]
    · by_cases hc : c k
      · simp [alookup, hk, hc, ih]
      · simp [alookup, hk, hc, ih]

theorem keys_map_val {α β : Type} (g : β → β) (l : List (α × β)) :
    (l.map fun p => (p.1, g p.2)).map Prod.fst = l.map Prod.fst := by
  induction l with
  | nil => rfl
  | cons p rest ih => simp [ih]

theorem keys_map_cond {α β : Type} (c : α → Prop) [DecidablePred c] (g : β → β)
    (l : List (α × β)) :
    (l.map fun p => if c p.1 then (p.1, g p.2) else p).map Prod.fst = l.map Prod.fst := by
  induction l with
  | nil => rfl
  | cons p rest ih =>
    obtain ⟨k, v⟩ := p
    by_cases hc : c k
    · simp [hc, ih]
    · simp [hc, ih]

theorem keys_put {α β : Type} [DecidableEq α] (l : List (α × β)) (a : α) (b' : β) :
    (l.map fun p => if p.1 = a then (a, b') else p).map Prod.fst = l.map Prod.fst := by
  induction l with
  | nil => rfl
  | cons p rest ih =>
    obtain ⟨k, v⟩ := p
    by_cases hk : k = a
    · subst hk
      simp [ih]
    · simp [hk, ih]

theorem mem_keys_of_mem_spawn {α β : Type} (q : β → Bool) (l : List (α × β)) (x : α)
    (hx : x ∈ l.filterMap fun p => if q p.2 then some p.1 else none) :
    x ∈ l.map Prod.fst := by
  induction l with
  | nil => simp at hx
  | cons p rest ih =>
    obtain ⟨k, v⟩ := p
    rw [List.filterMap_cons] at hx
    by_cases hq : q v
    · simp only [hq, if_pos] at hx
      rcases List.mem_cons.mp hx with hx | hx
      · exact hx ▸ List.mem_cons_self _ _
      · exact List.mem_cons_of_mem _ (ih hx)
    · simp only [hq] at hx
      rw [if_neg (by simp [hq])] at hx
      exact List.mem_cons_of_mem _ (ih hx)

theorem mem_spawn_iff {α β : Type} [DecidableEq α] (q : β → Bool) (l : List (α × β))
    (a : α) (r : β) (hnd : (l.map Prod.fst).Nodup) (h : alookup a l = some r) :
    (a ∈ l.filterMap fun p => if q p.2 then some p.1 else none) ↔ q r = true := by
  induction l with
  | nil => cases h
  | cons p rest ih =>
    obtain ⟨k, v⟩ := p
    rw [List.filterMap_cons]
    simp only [List.map_cons, List.nodup_cons] at hnd
    by_cases hk : k = a
    · subst hk
      have hv : v = r := by
        have := h
        simp only [alookup, if_pos rfl] at this
        exact Option.some.inj this
      subst hv
      by_cases hq : q v
      · simp only [hq, if_pos]
        simp [List.mem_cons]
      · rw [if_neg (by simp [hq])]
        simp only [hq]
        constructor
        · intro hmem
          exact absurd (mem_keys_of_mem_spawn q rest k hmem) hnd.1
        · intro hfalse
          cases hfalse
    · have h' : alookup a rest = some r := by
        simpa [alookup, hk] using h
      have ihr := ih hnd.2 h'
      by_cases hq : q v
      · simp only [hq, if_pos]
        rw [List.mem_cons]
        constructor
        · intro hmem
          rcases hmem with hx | hx
          · exact absurd hx.symm hk
          · exact ihr.mp hx
        · intro hdue
          exact Or.inr (ihr.mpr hdue)
      · rw [if_neg (by simp [hq])]
        exact ihr

/-- Lookup after handle_relay_closed: the closed relay waits
backoff_ticks. -/
theorem relay_closed_lookup {RA : Type} [DecidableEq RA] (st : PoolState RA) (addr : RA)
    (r : Relay) (h : alookup addr st.relays = some r) :
    alookup addr (handle_relay_closed st addr).relays =
      some { r with status := RelayStatus.Waiting st.backoff_ticks } := by
  unfold handle_relay_closed
  rw [h]
  show alookup addr (st.relays.map fun p =>
    if p.1 = addr then (addr, { r with status := RelayStatus.Waiting st.backoff_ticks })
    else p) = _
  rw [alookup_put, h]
  rfl

theorem relay_closed_keys {RA : Type} [DecidableEq RA] (st : PoolState RA) (addr : RA) :
    (handle_relay_closed st addr).relays.map Prod.fst = st.relays.map Prod.fst := by
  unfold handle_relay_closed
  cases h : alookup addr st.relays with
  | none => rfl
  | some relay => exact keys_put st.relays addr _

theorem relay_closed_backoff {RA : Type} [DecidableEq RA] (st : PoolState RA) (addr : RA) :
    (handle_relay_closed st addr).backoff_ticks = st.backoff_ticks := by
  unfold handle_relay_closed
  cases h : alookup addr st.relays with
  | none => rfl
  | some relay => rfl

/-- Lookup after one timer tick, together with the spawn-list
membership. -/
theorem tick_lookup {RA : Type} [DecidableEq RA] (st : PoolState RA) (addr : RA) (r : Relay)
    (hnd : (st.relays.map Prod.fst).Nodup) (h : alookup addr st.relays = some r) :
    alookup addr (handle_timer_tick st).1.relays =
      some (if relaySpawnDue r then connectRelay (decrementRelay r) else decrementRelay r)
    ∧ (addr ∈ (handle_timer_tick st).2 ↔ relaySpawnDue r = true) := by
  have hdec : alookup addr (tickDecrement st).relays = some (decrementRelay r) := by
    show alookup addr (st.relays.map fun p => (p.1, decrementRelay p.2)) = _
    rw [alookup_map_val, h]
    rfl
  have hspawn : (addr ∈ tickSpawnList st) ↔ relaySpawnDue r = true :=
    mem_spawn_iff _ _ _ _ hnd h
  constructor
  · show alookup addr ((tickDecrement st).relays.map fun p =>
      if p.1 ∈ tickSpawnList st then (p.1, connectRelay p.2) else p) = _
    rw [alookup_map_cond, hdec]
    by_cases hdue : relaySpawnDue r
    · rw [if_pos hdue]
      show some (if addr ∈ tickSpawnList st then _ else _) = _
      rw [if_pos (hspawn.mpr hdue)]
    · rw [if_neg hdue]
      show some (if addr ∈ tickSpawnList st then _ else _) = _
      rw [if_neg (fun hc => hdue (hspawn.mp hc))]
  · exact hspawn

theorem tick_keys {RA : Type} [DecidableEq RA] (st : PoolState RA) :
    (handle_timer_tick st).1.relays.map Prod.fst = st.relays.map Prod.fst := by
  show ((tickDecrement st).relays.map fun p =>
    if p.1 ∈ tickSpawnList st then (p.1, connectRelay p.2) else p).map Prod.fst = _
  rw [keys_map_cond]
  exact keys_map_val _ _

end Offst

namespace Offst

/-! ### C7 — listen-pool backoff -/

/-- C7: handle_relay_closed sets a known relay's status to
Waiting(backoff_ticks); each handle_timer_tick decrements every Waiting
counter, respawns exactly the relays whose counter has reached zero and
leaves Connected relays untouched; with backoff_ticks = 2 a closed
relay's listener is respawned after exactly 2 timer ticks (none on the
first tick, respawn on the second). -/
theorem claim_c7_listen_pool_backoff {RA : Type} [DecidableEq RA] (st : PoolState RA)
    (addr : RA) (r : Relay)
    (hnd : (st.relays.map Prod.fst).Nodup)
    (h : alookup addr st.relays = some r) :
    alookup addr (handle_relay_closed st addr).relays =
      some { r with status := RelayStatus.Waiting st.backoff_ticks }
    ∧ (∀ n, r.status = RelayStatus.Waiting n → 1 < n →
        alookup addr (handle_timer_tick st).1.relays =
          some { r with status := RelayStatus.Waiting (n - 1) }
        ∧ addr ∉ (handle_timer_tick st).2)
    ∧ (∀ n, r.status = RelayStatus.Waiting n → n ≤ 1 →
        alookup addr (handle_timer_tick st).1.relays =
          some { r with status := RelayStatus.Connected }
        ∧ addr ∈ (handle_timer_tick st).2)
    ∧ (r.status = RelayStatus.Connected →
        alookup addr (handle_timer_tick st).1.relays = some r
        ∧ addr ∉ (handle_timer_tick st).2)
    ∧ (st.backoff_ticks = 2 →
        addr ∉ (handle_timer_tick (handle_relay_closed st addr)).2
        ∧ addr ∈ (handle_timer_tick
            (handle_timer_tick (handle_relay_closed st addr)).1).2
        ∧ alookup addr (handle_timer_tick
            (handle_timer_tick (handle_relay_closed st addr)).1).1.relays =
          some { r with status := RelayStatus.Connected }) := by
  obtain ⟨hlook, hmem⟩ := tick_lookup st addr r hnd h
  refine ⟨relay_closed_lookup st addr r h, ?_, ?_, ?_, ?_⟩
  · intro n hstat hn
    have hdue : relaySpawnDue r = false := by
      simp [relaySpawnDue, hstat]
      omega
    constructor
    · rw [hlook]
      simp [hdue, decrementRelay, hstat]
    · intro hc
      exact absurd (hmem.mp hc) (by simp [hdue])
  · intro n hstat hn
    have hdue : relaySpawnDue r = true := by
      simp [relaySpawnDue, hstat]
      omega
    constructor
    · rw [hlook]
      simp [hdue, connectRelay, decrementRelay, hstat]
    · exact hmem.mpr hdue
  · intro hstat
    have hdue : relaySpawnDue r = false := by simp [relaySpawnDue, hstat]
    constructor
    · rw [hlook]
      simp [hdue, decrementRelay, hstat]
    · intro hc
      exact absurd (hmem.mp hc) (by simp [hdue])
  · intro hb
    have h₁ : alookup addr (handle_relay_closed st addr).relays =
        some { r with status := RelayStatus.Waiting 2 } := by
      have := relay_closed_lookup st addr r h
      rw [hb] at this
      exact this
    have hnd₁ : ((handle_relay_closed st addr).relays.map Prod.fst).Nodup := by
      rw [relay_closed_keys]
      exact hnd
    obtain ⟨hl₁, hm₁⟩ := tick_lookup (handle_relay_closed st addr) addr _ hnd₁ h₁
    have hdue₁ : relaySpawnDue { r with status := RelayStatus.Waiting 2 } = false := by
      simp [relaySpawnDue]
    have h₂ : alookup addr (handle_timer_tick (handle_relay_closed st addr)).1.relays =
        some { r with status := RelayStatus.Waiting 1 } := by
      rw [hl₁]
      simp [hdue₁, decrementRelay]
    have hnd₂ : ((handle_timer_tick (handle_relay_closed st addr)).1.relays.map
        Prod.fst).Nodup := by
      rw [tick_keys]
      exact hnd₁
    obtain ⟨hl₂, hm₂⟩ :=
      tick_lookup (handle_timer_tick (handle_relay_closed st addr)).1 addr _ hnd₂ h₂
    have hdue₂ : relaySpawnDue { r with status := RelayStatus.Waiting 1 } = true := by
      simp [relaySpawnDue]
    refine ⟨?_, hm₂.mpr hdue₂, ?_⟩
    · intro hc
      exact absurd (hm₁.mp hc) (by simp [hdue₁])
    · rw [hl₂]
      simp [hdue₂, connectRelay, decrementRelay]

/-- Witness for C7 at a concrete input: the single relay of poolW is
closed, waits out the two backoff ticks, and is respawned on the second
tick. -/
theorem claim_c7_listen_pool_backoff_witness :
    alookup 0 (handle_relay_closed poolW 0).relays =
      some { friends := [], status := RelayStatus.Waiting 2 }
    ∧ 0 ∉ (handle_timer_tick (handle_relay_closed poolW 0)).2
    ∧ 0 ∈ (handle_timer_tick (handle_timer_tick (handle_relay_closed poolW 0)).1).2
    ∧ alookup 0 (handle_timer_tick
        (handle_timer_tick (handle_relay_closed poolW 0)).1).1.relays =
      some { friends := [], status := RelayStatus.Connected } := by
  have hmain := claim_c7_listen_pool_backoff poolW 0
    { friends := [], status := RelayStatus.Connected } (by decide) rfl
  exact ⟨hmain.1, (hmain.2.2.2.2 rfl).1, (hmain.2.2.2.2 rfl).2.1, (hmain.2.2.2.2 rfl).2.2⟩

end Offst

namespace Offst

/-! ### C8 — stale responder nonce (amended) -/

/-- C8 (amended): when the initiator is a known neighbor without a remote
address and the signature verifies, an ExchangeActive whose
responder_rand_nonce is not in the sliding window is rejected with
InvalidResponderNonce and the server state — in particular both
handshake_server_sessions and public_key_to_hash_result — is unchanged.
(When, in addition, the initiator is unknown or the signature is
invalid, the earlier checks answer first, still without touching the
state.) -/
theorem claim_c8_stale_nonce (sigOk : ExchangeActive → Bool) (fresh_key_salt : Salt)
    (last_hash : HashResult) (st : HandshakeServer) (m : ExchangeActive) (nb : Neighbor)
    (h1 : alookup m.initiator_public_key st.neighbors = some nb)
    (h2 : nb.remote_addr = none)
    (h3 : sigOk m = true)
    (h4 : st.rand_values_store.contains m.responder_rand_nonce = false) :
    handle_exchange_active sigOk fresh_key_salt last_hash st m =
      (st, .error HandshakeServerError.InvalidResponderNonce) := by
  have hchk : check_exchange_active sigOk st m =
      some HandshakeServerError.InvalidResponderNonce := by
    simp [check_exchange_active, h1, h2, h3, h4]
  simp only [handle_exchange_active, hchk]

/-- Witness for C8 at a concrete input. -/
theorem claim_c8_stale_nonce_witness :
    handle_exchange_active (fun _ => true) (fillBytes 32 16) (fillBytes 32 17)
        hsServerW hsMsgStaleW =
      (hsServerW, .error HandshakeServerError.InvalidResponderNonce) :=
  claim_c8_stale_nonce (fun _ => true) (fillBytes 32 16) (fillBytes 32 17)
    hsServerW hsMsgStaleW { remote_addr := none } rfl rfl rfl (by decide)

/-- Counterexample for C8 as frozen: the neighbor check precedes the
nonce check, so a stale-nonce message from an unknown initiator is
answered with UnknownNeighbor, not InvalidResponderNonce. -/
theorem claim_c8_counterexample :
    hsServerEmptyW.rand_values_store.contains hsMsgStaleW.responder_rand_nonce = false
    ∧ handle_exchange_active (fun _ => true) (fillBytes 32 16) (fillBytes 32 17)
        hsServerEmptyW hsMsgStaleW =
      (hsServerEmptyW, .error HandshakeServerError.UnknownNeighbor)
    ∧ HandshakeServerError.UnknownNeighbor ≠ HandshakeServerError.InvalidResponderNonce := by
  refine ⟨by decide, by decide, by decide⟩

/-! ### C9 — handshake session timeout -/

theorem keys_filterMap_keyed_sublist {α β γ : Type} (g : β → Option γ)
    (l : List (α × β)) :
    ((l.filterMap fun p => (g p.2).map (fun c => (p.1, c))).map Prod.fst).Sublist
      (l.map Prod.fst) := by
  induction l with
  | nil => exact List.Sublist.refl _
  | cons p rest ih =>
    rw [List.filterMap_cons]
    cases hg : g p.2 with
    | none =>
      simp only [Option.map_none']
      exact ih.trans (List.sublist_cons_self _ _)
    | some c =>
      simp only [Option.map_some']
      exact List.Sublist.cons₂ _ ih

theorem alookup_filterMap_keyed {α β γ : Type} [DecidableEq α] (g : β → Option γ)
    (l : List (α × β)) (a : α) (hnd : (l.map Prod.fst).Nodup) :
    alookup a (l.filterMap fun p => (g p.2).map (fun c => (p.1, c))) =
      (alookup a l).bind g := by
  induction l with
  | nil => rfl
  | cons p rest ih =>
    obtain ⟨k, v⟩ := p
    simp only [List.map_cons, List.nodup_cons] at hnd
    rw [List.filterMap_cons]
    by_cases hk : k = a
    · subst hk
      cases hg : g v with
      | none =>
        simp only [Option.map_none']
        have hnomem : alookup k (rest.filterMap fun p =>
            (g p.2).map (fun c => (p.1, c))) = none := by
          apply alookup_eq_none_of_not_mem_keys
          intro hmem
          exact hnd.1 ((keys_filterMap_keyed_sublist g rest).mem hmem)
        simp [alookup, hnomem, hg]
      | some c =>
        simp [alookup, hg]
    · cases hg : g v with
      | none =>
        simp only [Option.map_none']
        rw [ih hnd.2]
        simp [alookup, hk]
      | some c =>
        simp only [Option.map_some']
        simp [alookup, hk, ih hnd.2]

/-- Lookup of a session after one time_tick. -/
theorem session_tick_lookup (st : HandshakeServer) (fresh : RandValue) (h : HashResult)
    (s : HandshakeServerSession)
    (hnd : (st.handshake_server_sessions.map Prod.fst).Nodup)
    (hs : alookup h st.handshake_server_sessions = some s) :
    alookup h (st.time_tick fresh).handshake_server_sessions =
      (if 1 ≤ s.timeout then some { s with timeout := s.timeout - 1 } else none) := by
  show alookup h (sessionsRetain st.handshake_server_sessions) = _
  unfold sessionsRetain
  rw [alookup_filterMap_keyed retainSession _ _ hnd, hs]
  rfl

theorem tick_sessions_nodup (st : HandshakeServer) (fresh : RandValue)
    (hnd : (st.handshake_server_sessions.map Prod.fst).Nodup) :
    ((st.time_tick fresh).handshake_server_sessions.map Prod.fst).Nodup := by
  show ((sessionsRetain st.handshake_server_sessions).map Prod.fst).Nodup
  unfold sessionsRetain
  exact hnd.sublist (keys_filterMap_keyed_sublist retainSession _)

/-- A session that still has k ticks of budget survives k ticks with its
timeout reduced by k. -/
theorem session_survives (rvs : Nat → RandValue) (k : Nat) :
    ∀ (st : HandshakeServer) (h : HashResult) (s : HandshakeServerSession),
      (st.handshake_server_sessions.map Prod.fst).Nodup →
      alookup h st.handshake_server_sessions = some s →
      k ≤ s.timeout →
      alookup h (timeTickN rvs k st).handshake_server_sessions =
        some { s with timeout := s.timeout - k }
      ∧ ((timeTickN rvs k st).handshake_server_sessions.map Prod.fst).Nodup := by
  induction k with
  | zero =>
    intro st h s hnd hs _
    refine ⟨?_, hnd⟩
    show alookup h st.handshake_server_sessions = _
    rw [hs]
    rfl
  | succ k ih =>
    intro st h s hnd hs hk
    have h1 : 1 ≤ s.timeout := by omega
    have hstep : alookup h (st.time_tick (rvs k)).handshake_server_sessions =
        some { s with timeout := s.timeout - 1 } := by
      rw [session_tick_lookup st (rvs k) h s hnd hs, if_pos h1]
    have hnd' := tick_sessions_nodup st (rvs k) hnd
    obtain ⟨ha, hb⟩ := ih (st.time_tick (rvs k)) h { s with timeout := s.timeout - 1 }
      hnd' hstep (show k ≤ s.timeout - 1 by omega)
    refine ⟨?_, hb⟩
    show alookup h (timeTickN rvs k (st.time_tick (rvs k))).handshake_server_sessions = _
    rw [ha]
    show some ({ s with timeout := s.timeout - 1 - k } : HandshakeServerSession) = _
    rw [show s.timeout - 1 - k = s.timeout - (k + 1) by omega]

/-- The public key of a session whose timeout has run out appears on the
expired list. -/
theorem mem_sessionsExpired (sessions : List (HashResult × HandshakeServerSession))
    (h : HashResult) (s : HandshakeServerSession)
    (hs : alookup h sessions = some s) (ht : s.timeout = 0) :
    s.remote_public_key ∈ sessionsExpired sessions := by
  unfold sessionsExpired
  exact List.mem_filterMap.mpr
    ⟨(h, s), mem_of_alookup_eq_some hs, by simp [expireSession, ht]⟩

/-- A session is removed from both maps on the tick after its timeout
reaches zero. -/
theorem session_dropped (rvs : Nat → RandValue) (k : Nat) :
    ∀ (st : HandshakeServer) (h : HashResult) (s : HandshakeServerSession),
      (st.handshake_server_sessions.map Prod.fst).Nodup →
      alookup h st.handshake_server_sessions = some s →
      k = s.timeout + 1 →
      alookup h (timeTickN rvs k st).handshake_server_sessions = none
      ∧ alookup s.remote_public_key
          (timeTickN rvs k st).public_key_to_hash_result = none := by
  induction k with
  | zero =>
    intro st h s _ _ hk
    cases hk
  | succ k ih =>
    intro st h s hnd hs hk
    by_cases ht : s.timeout = 0
    · have hk0 : k = 0 := by omega
      subst hk0
      have hdrop : alookup h (st.time_tick (rvs 0)).handshake_server_sessions = none := by
        rw [session_tick_lookup st (rvs 0) h s hnd hs, if_neg (by omega)]
      have hpk : alookup s.remote_public_key
          (st.time_tick (rvs 0)).public_key_to_hash_result = none := by
        show alookup s.remote_public_key
          (aremoveAll (sessionsExpired st.handshake_server_sessions)
            st.public_key_to_hash_result) = none
        exact alookup_aremoveAll_mem _
          (mem_sessionsExpired st.handshake_server_sessions h s hs ht)
      exact ⟨hdrop, hpk⟩
    · have h1 : 1 ≤ s.timeout := by omega
      have hstep : alookup h (st.time_tick (rvs k)).handshake_server_sessions =
          some { s with timeout := s.timeout - 1 } := by
        rw [session_tick_lookup st (rvs k) h s hnd hs, if_pos h1]
      have hnd' := tick_sessions_nodup st (rvs k) hnd
      have := ih (st.time_tick (rvs k)) h { s with timeout := s.timeout - 1 }
        hnd' hstep (show k = (s.timeout - 1) + 1 by omega)
      exact this

/-- C9 (amended): every server session created by handle_exchange_active
starts with timeout HANDSHAKE_SESSION_TIMEOUT; absent an intervening
ChannelReady or explicit removal, a stored session with timeout t still
sits in handshake_server_sessions after k ≤ t time_tick calls (with
timeout t - k, in particular timeout 0 after t calls), and it is dropped
silently — removed from both handshake_server_sessions and
public_key_to_hash_result — on the (t+1)-th time_tick call after its
creation: one call more than the claim as frozen states. -/
theorem claim_c9_session_timeout (sigOk : ExchangeActive → Bool) (fresh_key_salt : Salt)
    (last_hash : HashResult) (st : HandshakeServer) (m : ExchangeActive)
    (st' : HandshakeServer) (rvs : Nat → RandValue) :
    (handle_exchange_active sigOk fresh_key_salt last_hash st m = (st', .ok ()) →
      ∃ s, alookup last_hash st'.handshake_server_sessions = some s
        ∧ s.timeout = HANDSHAKE_SESSION_TIMEOUT
        ∧ s.remote_public_key = m.initiator_public_key)
    ∧ (∀ (st₀ : HandshakeServer) (h : HashResult) (s : HandshakeServerSession) (k : Nat),
        (st₀.handshake_server_sessions.map Prod.fst).Nodup →
        alookup h st₀.handshake_server_sessions = some s →
        k ≤ s.timeout →
        alookup h (timeTickN rvs k st₀).handshake_server_sessions =
          some { s with timeout := s.timeout - k })
    ∧ (∀ (st₀ : HandshakeServer) (h : HashResult) (s : HandshakeServerSession),
        (st₀.handshake_server_sessions.map Prod.fst).Nodup →
        alookup h st₀.handshake_server_sessions = some s →
        alookup h (timeTickN rvs (s.timeout + 1) st₀).handshake_server_sessions = none
        ∧ alookup s.remote_public_key
            (timeTickN rvs (s.timeout + 1) st₀).public_key_to_hash_result = none) := by
  refine ⟨?_, ?_, ?_⟩
  · intro heq
    unfold handle_exchange_active at heq
    cases hchk : check_exchange_active sigOk st m with
    | some e =>
      rw [hchk] at heq
      cases heq
    | none =>
      rw [hchk] at heq
      cases hl : alookup last_hash st.handshake_server_sessions with
      | some old =>
        rw [hl] at heq
        cases heq
      | none =>
        rw [hl] at heq
        injection heq with h1 h2
        cases h1
        refine ⟨{ remote_public_key := m.initiator_public_key
                  recv_rand_nonce := m.initiator_rand_nonce
                  sent_rand_nonce := m.responder_rand_nonce
                  sent_key_salt := fresh_key_salt
                  recv_key_salt := m.key_salt
                  remote_dh_public_key := m.dh_public_key
                  timeout := HANDSHAKE_SESSION_TIMEOUT }, ?_, rfl, rfl⟩
        simp [alookup]
  · intro st₀ h s k hnd hs hk
    exact (session_survives rvs k st₀ h s hnd hs hk).1
  · intro st₀ h s hnd hs
    exact session_dropped rvs (s.timeout + 1) st₀ h s hnd hs rfl

end Offst

namespace Offst

/-- Witness for C9 at concrete inputs: a session freshly created by
handle_exchange_active carries the full timeout; a stored full-budget
session survives 3 ticks with timeout 5; and it is dropped from both
maps on the (timeout + 1)-th tick. -/
theorem claim_c9_session_timeout_witness :
    (∃ s, alookup (fillBytes 32 17)
        ((handle_exchange_active (fun _ => true) (fillBytes 32 16) (fillBytes 32 17)
            hsServerW hsMsgGoodW).1).handshake_server_sessions = some s
      ∧ s.timeout = HANDSHAKE_SESSION_TIMEOUT
      ∧ s.remote_public_key = hsMsgGoodW.initiator_public_key)
    ∧ alookup (fillBytes 32 17)
        (timeTickN (fun _ => fillBytes 16 20) 3 hsServerSessW).handshake_server_sessions =
      some { sessW with timeout := sessW.timeout - 3 }
    ∧ alookup (fillBytes 32 17)
        (timeTickN (fun _ => fillBytes 16 20) (sessW.timeout + 1)
          hsServerSessW).handshake_server_sessions = none
    ∧ alookup sessW.remote_public_key
        (timeTickN (fun _ => fillBytes 16 20) (sessW.timeout + 1)
          hsServerSessW).public_key_to_hash_result = none := by
  have H := claim_c9_session_timeout (fun _ => true) (fillBytes 32 16) (fillBytes 32 17)
    hsServerW hsMsgGoodW
    (handle_exchange_active (fun _ => true) (fillBytes 32 16) (fillBytes 32 17)
      hsServerW hsMsgGoodW).1 (fun _ => fillBytes 16 20)
  refine ⟨H.1 (by decide), ?_, ?_, ?_⟩
  · exact H.2.1 hsServerSessW (fillBytes 32 17) sessW 3 (by decide) rfl (by decide)
  · exact (H.2.2 hsServerSessW (fillBytes 32 17) sessW (by decide) rfl).1
  · exact (H.2.2 hsServerSessW (fillBytes 32 17) sessW (by decide) rfl).2

/-- Counterexample for C9 as frozen: the session created by
handle_exchange_active is still stored after HANDSHAKE_SESSION_TIMEOUT
time_tick calls (with timeout 0); it is dropped only on the next call. -/
theorem claim_c9_counterexample :
    (handle_exchange_active (fun _ => true) (fillBytes 32 16) (fillBytes 32 17)
        hsServerW hsMsgGoodW).2 = .ok ()
    ∧ alookup (fillBytes 32 17)
        (timeTickN (fun _ => fillBytes 16 20) HANDSHAKE_SESSION_TIMEOUT
          (handle_exchange_active (fun _ => true) (fillBytes 32 16) (fillBytes 32 17)
            hsServerW hsMsgGoodW).1).handshake_server_sessions ≠ none := by
  refine ⟨by decide, by decide⟩

end Offst

namespace OldTc

/-! ### C10 — transactional batch processing -/

/-- No reachable arm of process_message produces an output value. -/
theorem processMessage_output_none {C V R Rq Rs Fl O : Type} (ops : TcOps C V R O)
    (pk : Offst.PublicKey) (cv : C × V) (m : NetworkerTCMessage R Rq Rs Fl)
    (out : Option O) (cv' : C × V)
    (h : processMessage ops pk cv m = some (.ok (out, cv'))) : out = none := by
  cases m <;> simp only [processMessage] at h <;> (repeat' split at h) <;> simp_all

/-- The indexed transaction runner agrees with the reference batch
evaluator: it panics iff the reference panics, fails at the absolute
index idx + i when the reference fails at relative index i, and on
success returns the accumulated outputs and the reference's final
state. -/
theorem processMessagesList_spec {C V R Rq Rs Fl O : Type} (ops : TcOps C V R O)
    (pk : Offst.PublicKey) (msgs : List (NetworkerTCMessage R Rq Rs Fl)) :
    ∀ (idx : Nat) (cv : C × V) (acc : List O),
      (applyBatch ops pk cv msgs = none →
        processMessagesList ops pk idx cv acc msgs = none)
      ∧ (∀ i e, applyBatch ops pk cv msgs = some (.error (i, e)) →
          ∃ cv', processMessagesList ops pk idx cv acc msgs =
            some (.error { index := idx + i, process_trans_error := e }, cv'))
      ∧ (∀ cvf, applyBatch ops pk cv msgs = some (.ok cvf) →
          processMessagesList ops pk idx cv acc msgs = some (.ok acc.reverse, cvf)) := by
  induction msgs with
  | nil =>
    intro idx cv acc
    refine ⟨?_, ?_, ?_⟩
    · intro h
      cases h
    · intro i e h
      cases h
    · intro cvf h
      have : cv = cvf := by
        simpa [applyBatch] using h
      subst this
      rfl
  | cons m rest ih =>
    intro idx cv acc
    cases hm : processMessage ops pk cv m with
    | none =>
      refine ⟨?_, ?_, ?_⟩
      · intro _
        simp [processMessagesList, hm]
      · intro i e h
        simp only [applyBatch, hm] at h
        cases h
      · intro cvf h
        simp only [applyBatch, hm] at h
        cases h
    | some res =>
      cases res with
      | error e₀ =>
        refine ⟨?_, ?_, ?_⟩
        · intro h
          simp only [applyBatch, hm] at h
          cases h
        · intro i e h
          simp only [applyBatch, hm] at h
          cases h
          refine ⟨cv, ?_⟩
          simp [processMessagesList, hm]
        · intro cvf h
          simp only [applyBatch, hm] at h
          cases h
      | ok pair =>
        obtain ⟨out, cv'⟩ := pair
        have hout : out = none := processMessage_output_none ops pk cv m out cv' hm
        subst hout
        have hstep : processMessagesList ops pk idx cv acc (m :: rest) =
            processMessagesList ops pk (idx + 1) cv' acc rest := by
          simp [processMessagesList, hm]
        refine ⟨?_, ?_, ?_⟩
        · intro h
          simp only [applyBatch, hm] at h
          rw [hstep]
          cases hrest : applyBatch ops pk cv' rest with
          | none => exact (ih (idx + 1) cv' acc).1 hrest
          | some r =>
            rw [hrest] at h
            cases r with
            | error p => obtain ⟨i, e⟩ := p; cases h
            | ok cvf => cases h
        · intro i e h
          simp only [applyBatch, hm] at h
          rw [hstep]
          cases hrest : applyBatch ops pk cv' rest with
          | none =>
            rw [hrest] at h
            cases h
          | some r =>
            rw [hrest] at h
            cases r with
            | error p =>
              obtain ⟨j, f⟩ := p
              cases h
              obtain ⟨cv'', hres⟩ := ((ih (idx + 1) cv' acc).2.1 j e) hrest
              refine ⟨cv'', ?_⟩
              rw [hres]
              rw [show idx + 1 + j = idx + (j + 1) by omega]
            | ok cvf => cases h
        · intro cvf h
          simp only [applyBatch, hm] at h
          rw [hstep]
          cases hrest : applyBatch ops pk cv' rest with
          | none =>
            rw [hrest] at h
            cases h
          | some r =>
            rw [hrest] at h
            cases r with
            | error p => obtain ⟨j, f⟩ := p; cases h
            | ok cvf' =>
              cases h
              exact (ih (idx + 1) cv' acc).2.2 cvf hrest

/-- C10: atomic_process_messages_list is transactional.  Measured against
the reference batch evaluator applyBatch started from the channel's
balance/validator pair: when the i-th message fails with error e, the
call returns the error carrying index i and e, and the returned token
channel is the original one — balance state, invoice validator and
pending requests all restored; when every message succeeds, the new
channel carries the state of applying all messages in batch order (and
the reachable arms produce no outputs); a panic of the source
(`unreachable!` arms) is propagated as none. -/
theorem claim_c10_atomic_process_messages_list {C V P R Rq Rs Fl O : Type}
    (ops : TcOps C V R O) (tc : TokenChannel C V P)
    (msgs : List (NetworkerTCMessage R Rq Rs Fl)) :
    (applyBatch ops tc.local_public_key (tc.tc_balance, tc.invoice_validator) msgs = none →
      atomic_process_messages_list ops tc msgs = none)
    ∧ (∀ i e, applyBatch ops tc.local_public_key
          (tc.tc_balance, tc.invoice_validator) msgs = some (.error (i, e)) →
        atomic_process_messages_list ops tc msgs =
          some (.error { index := i, process_trans_error := e }, tc))
    ∧ (∀ cvf, applyBatch ops tc.local_public_key
          (tc.tc_balance, tc.invoice_validator) msgs = some (.ok cvf) →
        atomic_process_messages_list ops tc msgs =
          some (.ok [], { tc with tc_balance := cvf.1, invoice_validator := cvf.2 })) := by
  obtain ⟨hnone, herr, hok⟩ :=
    processMessagesList_spec ops tc.local_public_key msgs 0
      (tc.tc_balance, tc.invoice_validator) []
  refine ⟨?_, ?_, ?_⟩
  · intro h
    unfold atomic_process_messages_list
    rw [hnone h]
  · intro i e h
    obtain ⟨cv', hres⟩ := herr i e h
    unfold atomic_process_messages_list
    rw [hres]
    rw [show (0 : Nat) + i = i by omega]
  · intro cvf h
    obtain ⟨c', v'⟩ := cvf
    unfold atomic_process_messages_list
    rw [hok (c', v') h]
    rfl

end OldTc

namespace OldTc

/-- Witness for C10 at a concrete input: the second message of the batch
fails, the error carries index 1, and the token channel is returned
unchanged. -/
theorem claim_c10_atomic_process_messages_list_witness :
    applyBatch opsW tcW.local_public_key (tcW.tc_balance, tcW.invoice_validator) msgsW =
      some (.error (1, ProcessMessageError.InvoiceIdExists))
    ∧ atomic_process_messages_list opsW tcW msgsW =
      some (.error { index := 1, process_trans_error := ProcessMessageError.InvoiceIdExists },
            tcW) := by
  refine ⟨rfl, ?_⟩
  exact (claim_c10_atomic_process_messages_list opsW tcW msgsW).2.1 1
    ProcessMessageError.InvoiceIdExists rfl

end OldTc

namespace Offst

/-! ### C2 — injectivity of the FriendTcOp serialization -/

theorem beVal_append_singleton (l : List Nat) (b : Nat) :
    beVal (l ++ [b]) = beVal l * 256 + b := by
  unfold beVal
  rw [List.foldl_append]
  rfl

theorem beVal_natBEbytes (k : Nat) : ∀ n, beVal (natBEbytes k n) = n % 256 ^ k := by
  induction k with
  | zero =>
    intro n
    simp [natBEbytes, beVal, Nat.mod_one]
  | succ k ih =>
    intro n
    show beVal (natBEbytes k (n / 256) ++ [n % 256]) = _
    rw [beVal_append_singleton, ih]
    have h1 : n / 256 % 256 ^ k = n % 256 ^ (k + 1) / 256 := by
      rw [← Nat.mod_mul_right_div_self]
      congr 1
      rw [pow_succ]
      ring
    have h2 : n % 256 = n % 256 ^ (k + 1) % 256 :=
      (Nat.mod_mod_of_dvd n (dvd_pow_self 256 k.succ_ne_zero)).symm
    rw [h1, h2]
    omega

theorem natBE_append_inj {k a b : Nat} {p q : List Nat}
    (h : natBEbytes k a ++ p = natBEbytes k b ++ q) :
    a % 256 ^ k = b % 256 ^ k ∧ p = q := by
  have hsplit := List.append_inj h (by rw [natBEbytes_length, natBEbytes_length])
  refine ⟨?_, hsplit.2⟩
  have := congrArg beVal hsplit.1
  rwa [beVal_natBEbytes, beVal_natBEbytes] at this

theorem u128BE_append_inj {x y : U128} {p q : List Nat}
    (h : natBEbytes 16 x.val ++ p = natBEbytes 16 y.val ++ q) : x = y ∧ p = q := by
  obtain ⟨h1, h2⟩ := natBE_append_inj h
  have h256 : (256 : Nat) ^ 16 = 2 ^ 128 := by norm_num
  rw [h256, Nat.mod_eq_of_lt x.2, Nat.mod_eq_of_lt y.2] at h1
  exact ⟨Fin.ext h1, h2⟩

theorem u128BE_inj {x y : U128} (h : natBEbytes 16 x.val = natBEbytes 16 y.val) : x = y := by
  have h' : natBEbytes 16 x.val ++ [] = natBEbytes 16 y.val ++ [] := by
    rw [List.append_nil, List.append_nil, h]
  exact (u128BE_append_inj h').1

theorem bytes_append_inj {n : Nat} {x y : Bytes n} {p q : List Nat}
    (h : x.val ++ p = y.val ++ q) : x = y ∧ p = q := by
  have hs := List.append_inj h (x.2.trans y.2.symm)
  exact ⟨Subtype.ext hs.1, hs.2⟩

theorem keysBytes_inj : ∀ (l₁ l₂ : List PublicKey), l₁.length = l₂.length →
    keysBytes l₁ = keysBytes l₂ → l₁ = l₂ := by
  intro l₁
  induction l₁ with
  | nil =>
    intro l₂ hlen _
    cases l₂ with
    | nil => rfl
    | cons y ys => cases hlen
  | cons x xs ih =>
    intro l₂ hlen h
    cases l₂ with
    | nil => cases hlen
    | cons y ys =>
      simp only [keysBytes] at h
      obtain ⟨hx, hrest⟩ := bytes_append_inj h
      have : xs = ys := ih ys (by simpa using hlen) hrest
      rw [hx, this]

theorem route_append_inj {r₁ r₂ : FriendsRoute} {p q : List Nat}
    (hb₁ : r₁.public_keys.length < 2 ^ 64) (hb₂ : r₂.public_keys.length < 2 ^ 64)
    (h : r₁.to_bytes ++ p = r₂.to_bytes ++ q) : r₁ = r₂ ∧ p = q := by
  unfold FriendsRoute.to_bytes at h
  rw [List.append_assoc, List.append_assoc] at h
  obtain ⟨hlen, hrest⟩ := natBE_append_inj h
  have h256 : (256 : Nat) ^ 8 = 2 ^ 64 := by norm_num
  rw [h256, Nat.mod_eq_of_lt hb₁, Nat.mod_eq_of_lt hb₂] at hlen
  obtain ⟨hkeys, hpq⟩ := List.append_inj hrest
    (by rw [keysBytes_length, keysBytes_length, hlen])
  refine ⟨?_, hpq⟩
  obtain ⟨ks₁⟩ := r₁
  obtain ⟨ks₂⟩ := r₂
  rw [keysBytes_inj ks₁ ks₂ hlen hkeys]

theorem linksBytes_inj : ∀ xs ys : List FunderFreezeLink,
    linksBytes xs = linksBytes ys → xs = ys := by
  intro xs
  induction xs with
  | nil =>
    intro ys h
    cases ys with
    | nil => rfl
    | cons y ys =>
      exfalso
      have hlen := congrArg List.length h
      obtain ⟨sc, u⟩ := y
      cases u <;>
        simp [linksBytes, FunderFreezeLink.to_bytes, Ratio.to_bytes,
          natBEbytes_length] at hlen <;>
        omega
  | cons x xs ih =>
    intro ys h
    cases ys with
    | nil =>
      exfalso
      have hlen := congrArg List.length h
      obtain ⟨sc, u⟩ := x
      cases u <;>
        simp [linksBytes, FunderFreezeLink.to_bytes, Ratio.to_bytes,
          natBEbytes_length] at hlen
    | cons y ys =>
      obtain ⟨sc₁, u₁⟩ := x
      obtain ⟨sc₂, u₂⟩ := y
      simp only [linksBytes, FunderFreezeLink.to_bytes, List.append_assoc] at h
      obtain ⟨hsc, hrest⟩ := u128BE_append_inj h
      cases u₁ with
      | One =>
        cases u₂ with
        | One =>
          simp only [Ratio.to_bytes, List.cons_append, List.nil_append,
            List.cons.injEq] at hrest
          rw [hsc, ih ys hrest.2]
        | Numerator n₂ =>
          simp only [Ratio.to_bytes, List.cons_append, List.nil_append,
            List.cons.injEq] at hrest
          exact absurd hrest.1 (by decide)
      | Numerator n₁ =>
        cases u₂ with
        | One =>
          simp only [Ratio.to_bytes, List.cons_append, List.nil_append,
            List.cons.injEq] at hrest
          exact absurd hrest.1 (by decide)
        | Numerator n₂ =>
          simp only [Ratio.to_bytes, List.cons_append, List.cons.injEq] at hrest
          obtain ⟨-, hrest₂⟩ := hrest
          obtain ⟨hn, htail⟩ := u128BE_append_inj hrest₂
          rw [hsc, hn, ih ys htail]

end Offst

namespace Offst

/-- C2 (amended): the canonical serialization determines a FriendTcOp up
to the fields the source never writes — for every pair of operations with
route lengths below 2^64 (as every Rust Vec length is), equal serialized
byte sequences imply the operations agree after erasing the
RequestSendFunds invoice_id and the FailureSendFunds rand_nonce; in
particular the serialization determines the request_id, route,
dest_payment and freeze_links of a RequestSendFunds. -/
theorem claim_c2_to_bytes_inj_up_to_unsigned (a b : FriendTcOp)
    (ha : a.routeBounded = true) (hb : b.routeBounded = true)
    (h : a.to_bytes = b.to_bytes) : a.eraseUnsigned = b.eraseUnsigned := by
  cases a <;> cases b <;>
    simp only [FriendTcOp.to_bytes, List.cons.injEq] at h <;>
    first
    | rfl
    | (exact absurd h.1 (by decide))
    | skip
  · -- SetRemoteMaxDebt
    rename_i x y
    obtain ⟨-, h2⟩ := h
    rw [u128BE_inj h2]
  · -- RequestSendFunds
    rename_i r₁ r₂
    obtain ⟨-, h2⟩ := h
    simp only [FriendTcOp.routeBounded, decide_eq_true_eq] at ha hb
    obtain ⟨id₁, rt₁, pay₁, inv₁, fl₁⟩ := r₁
    obtain ⟨id₂, rt₂, pay₂, inv₂, fl₂⟩ := r₂
    simp only [RequestSendFunds.to_bytes, List.append_assoc] at h2
    obtain ⟨hid, h3⟩ := bytes_append_inj h2
    obtain ⟨hrt, h4⟩ := route_append_inj ha hb h3
    obtain ⟨hpay, h5⟩ := u128BE_append_inj h4
    have hfl := linksBytes_inj _ _ h5
    simp only [FriendTcOp.eraseUnsigned, FriendTcOp.RequestSendFunds.injEq,
      RequestSendFunds.mk.injEq]
    exact ⟨hid, hrt, hpay, trivial, hfl⟩
  · -- ResponseSendFunds
    rename_i r₁ r₂
    obtain ⟨-, h2⟩ := h
    obtain ⟨id₁, n₁, sg₁⟩ := r₁
    obtain ⟨id₂, n₂, sg₂⟩ := r₂
    simp only [ResponseSendFunds.to_bytes, List.append_assoc] at h2
    obtain ⟨hid, h3⟩ := bytes_append_inj h2
    obtain ⟨hn, h4⟩ := bytes_append_inj h3
    have hsg : sg₁ = sg₂ := Subtype.ext h4
    rw [hid, hn, hsg]
  · -- FailureSendFunds
    rename_i f₁ f₂
    obtain ⟨-, h2⟩ := h
    obtain ⟨id₁, pk₁, n₁, sg₁⟩ := f₁
    obtain ⟨id₂, pk₂, n₂, sg₂⟩ := f₂
    simp only [FailureSendFunds.to_bytes, List.append_assoc] at h2
    obtain ⟨hid, h3⟩ := bytes_append_inj h2
    obtain ⟨hpk, h4⟩ := bytes_append_inj h3
    have hsg : sg₁ = sg₂ := Subtype.ext h4
    simp only [FriendTcOp.eraseUnsigned, FriendTcOp.FailureSendFunds.injEq,
      FailureSendFunds.mk.injEq]
    exact ⟨hid, hpk, trivial, hsg⟩

/-- Counterexample for C2 as frozen: two distinct RequestSendFunds
operations, differing only in invoice_id, serialize to the same byte
sequence — RequestSendFunds::to_bytes never writes the invoice_id. -/
theorem claim_c2_counterexample :
    c2opA ≠ c2opB ∧ FriendTcOp.to_bytes c2opA = FriendTcOp.to_bytes c2opB := by
  refine ⟨by decide, rfl⟩

/-- Witness for C2 at a concrete input: the two colliding operations are
identified once the unsigned invoice_id is erased. -/
theorem claim_c2_to_bytes_inj_up_to_unsigned_witness :
    FriendTcOp.eraseUnsigned c2opA = FriendTcOp.eraseUnsigned c2opB :=
  claim_c2_to_bytes_inj_up_to_unsigned c2opA c2opB (by decide) (by decide) rfl

end Offst
